import Mathlib

/-!
# LogoTec turtle runtime (`src/Executable/runtime.c`)

A shallow embedding of the command-forwarding runtime: the two globals
`g_sock` / `g_py`, the line transport `send_cmd`, the integer drawing
primitives, the connector `rt_init`, `rt_shutdown`, and the three file-polling
queries `get_heading`, `rand_int`, `pow_int`.

Modelling conventions.

* A C string is a `List Char` (`CStr`).  `snprintf (buf, size, ...)` keeps at
  most `size - 1` bytes of the formatted text.
* A C `int` argument is an `Int`; the 32-bit range is the predicate `int32`.
* The operating system is an oracle record (`Env`): every library call whose
  outcome the program cannot determine (name resolution, `connect`, process
  creation, temporary-name allocation, what the backend does to the file
  system while the runtime sleeps) is a field of it.  Oracles of the process
  creation calls are indexed by the call site, so that each call can have its
  own outcome.
* Everything the runtime does to the outside world is appended to
  `State.trace` as an `Event`, in program order.  `Event.tried` is a ghost
  event: it marks the end of the attempt of a strategy, right after the
  result was stored in the global, with whether a transport was produced
  (the value `rt_init` tests next).
* Diagnostics on `stderr` (`debug_log`, `perror`) and memory management
  (`free` of allocated blocks, `freeaddrinfo`, `CloseHandle`) are not part of
  the state.  One `free` is: in the non-Windows branch `rt_init` frees the
  pointer `getenv` returned for `TURTLE_PY_CMD`, a block that was not
  allocated.  The behaviour is undefined; the model ends the run there
  (`State.aborted`), as the run-time library does when it detects the invalid
  pointer, and no later call into the runtime runs.
* A number in the channel file outside the range of `int` is stored by
  `fscanf` as the library sees fit; the value is the oracle
  `Env.scan_overflow`.
* Both conditional-compilation branches are modelled; `win = true` selects
  the `_WIN32` one.  The non-Windows branch uses `POPEN`, `PCLOSE` and
  `PY_CMD`, which the file does not define: `POPEN` is the oracle
  `Env.popen`, `PCLOSE` the event `Event.pclose`, `PY_CMD` the field
  `Env.PY_CMD`.
-/

namespace LogoTec

/-- A C string: the bytes before the terminating NUL. -/
abbrev CStr := List Char

/-- The file system the runtime shares with the backend: the content of the
file at a path, `none` when no file is there. -/
abbrev FS := CStr → Option CStr

/-- The four connection strategies of `rt_init`, in source order. -/
inductive Strategy where
  | tcp
  | exe_script
  | override
  | fallback
  deriving DecidableEq, Repr

/-- Effects of the runtime on the outside world. -/
inductive Event where
  | wsa_startup
  | getaddrinfo (host port : CStr)
  | connect (sock : Nat) (ok : Bool)
  | closesocket (sock : Nat)
  | spawn (site : Strategy) (cmd : CStr) (ok : Bool)
  | tried (st : Strategy) (ok : Bool)
  | send (sock : Nat) (bytes : CStr)
  | fputs (fp : Nat) (bytes : CStr)
  | fputc (fp : Nat) (c : Char)
  | fflush (fp : Nat)
  | sleep (ms : Nat)
  | pclose (fp : Nat)
  | fclose (fp : Nat)
  | wsa_cleanup
  deriving DecidableEq, Repr

/-- The globals `g_sock` (`none` is `-1` / `INVALID_SOCKET`) and `g_py`
(`none` is `NULL`), the file system, the effects so far, and whether the
process was aborted. -/
structure State where
  g_sock : Option Nat
  g_py : Option Nat
  fs : FS
  trace : List Event
  aborted : Bool

/-- State at program start: `g_sock = -1`, `g_py = NULL`, nothing done yet. -/
def State.initial (fs : FS) : State :=
  { g_sock := none, g_py := none, fs := fs, trace := [], aborted := false }

/-- Append effects to the trace. -/
def State.emit (s : State) (es : List Event) : State :=
  { s with trace := s.trace ++ es }

/-- A transport is active: `g_py || g_sock != -1`. -/
def State.active (s : State) : Bool :=
  s.g_py.isSome || s.g_sock.isSome

/-- Bytes an event delivers to a transport. -/
def Event.bytes : Event → CStr
  | .send _ b => b
  | .fputs _ b => b
  | .fputc _ c => [c]
  | _ => []

/-- All bytes a trace delivers to the transports, in order. -/
def wire : List Event → CStr
  | [] => []
  | e :: es => e.bytes ++ wire es

/-- Total time a trace sleeps, in milliseconds. -/
def slept : List Event → Nat
  | [] => 0
  | .sleep ms :: es => ms + slept es
  | _ :: es => slept es

/-- Events appended to the trace between `s` and `t`. -/
def since (s t : State) : List Event :=
  t.trace.drop s.trace.length

/-- The line feed byte. -/
def LF : Char := Char.ofNat 10

/-! ## Transport -/

/-- Function `send_cmd`: socket first, else pipe, else nothing. -/
def send_cmd (txt : CStr) (s : State) : State :=
  match s.g_sock with
  | some h => s.emit [.send h txt, .send h [LF]]
  | none =>
    match s.g_py with
    | some fp => s.emit [.fputs fp txt, .fputc fp LF, .fflush fp]
    | none => s

/-! ## Command encoder -/

/-- The bytes `snprintf` leaves in a buffer of `size` bytes. -/
def snprintf (size : Nat) (text : CStr) : CStr :=
  text.take (size - 1)

/-- Conversion `%d`. -/
def fmt_d (d : Int) : CStr :=
  if d < 0 then '-' :: Nat.toDigits 10 d.natAbs else Nat.toDigits 10 d.toNat

/-- Range of a C `int`. -/
def int32 (d : Int) : Prop :=
  -2147483648 ≤ d ∧ d ≤ 2147483647

instance (d : Int) : Decidable (int32 d) := by
  unfold int32; infer_instance

def move_forward (d : Int) (s : State) : State :=
  send_cmd (snprintf 64 ("FORWARD ".toList ++ fmt_d d)) s

def move_backward (d : Int) (s : State) : State :=
  send_cmd (snprintf 64 ("BACK ".toList ++ fmt_d d)) s

def turn_right (deg : Int) (s : State) : State :=
  send_cmd (snprintf 64 ("RIGHT ".toList ++ fmt_d deg)) s

def turn_left (deg : Int) (s : State) : State :=
  send_cmd (snprintf 64 ("LEFT ".toList ++ fmt_d deg)) s

def set_position (x y : Int) (s : State) : State :=
  send_cmd (snprintf 64 ("POS ".toList ++ fmt_d x ++ " ".toList ++ fmt_d y)) s

def set_xy (x y : Int) (s : State) : State :=
  send_cmd (snprintf 64 ("POS ".toList ++ fmt_d x ++ " ".toList ++ fmt_d y)) s

def set_x (x : Int) (s : State) : State :=
  send_cmd (snprintf 64 ("POSX ".toList ++ fmt_d x)) s

def set_y (y : Int) (s : State) : State :=
  send_cmd (snprintf 64 ("POSY ".toList ++ fmt_d y)) s

def set_heading (h : Int) (s : State) : State :=
  send_cmd (snprintf 64 ("HEADING ".toList ++ fmt_d h)) s

def pen_up (s : State) : State := send_cmd "PENUP".toList s

def pen_down (s : State) : State := send_cmd "PENDOWN".toList s

def hide_turtle (s : State) : State := send_cmd "HIDE".toList s

def set_color (c : Int) (s : State) : State :=
  send_cmd (snprintf 64 ("COLOR ".toList ++ fmt_d c)) s

def delay_ms (ms : Int) (s : State) : State :=
  send_cmd (snprintf 64 ("DELAY ".toList ++ fmt_d ms)) s

def center_turtle (s : State) : State := send_cmd "CENTER".toList s

/-- The integer drawing primitives, each with its arguments. -/
inductive Draw where
  | move_forward (d : Int)
  | move_backward (d : Int)
  | turn_right (deg : Int)
  | turn_left (deg : Int)
  | set_position (x y : Int)
  | set_xy (x y : Int)
  | set_x (x : Int)
  | set_y (y : Int)
  | set_heading (h : Int)
  | set_color (c : Int)
  | delay_ms (ms : Int)

/-- Call of a drawing primitive. -/
def Draw.run : Draw → State → State
  | .move_forward d => LogoTec.move_forward d
  | .move_backward d => LogoTec.move_backward d
  | .turn_right g => LogoTec.turn_right g
  | .turn_left g => LogoTec.turn_left g
  | .set_position x y => LogoTec.set_position x y
  | .set_xy x y => LogoTec.set_xy x y
  | .set_x x => LogoTec.set_x x
  | .set_y y => LogoTec.set_y y
  | .set_heading h => LogoTec.set_heading h
  | .set_color c => LogoTec.set_color c
  | .delay_ms ms => LogoTec.delay_ms ms

/-- All arguments of the call are C `int` values. -/
def Draw.args32 : Draw → Prop
  | .move_forward d => int32 d
  | .move_backward d => int32 d
  | .turn_right g => int32 g
  | .turn_left g => int32 g
  | .set_position x y => int32 x ∧ int32 y
  | .set_xy x y => int32 x ∧ int32 y
  | .set_x x => int32 x
  | .set_y y => int32 y
  | .set_heading h => int32 h
  | .set_color c => int32 c
  | .delay_ms ms => int32 ms

instance (p : Draw) : Decidable p.args32 := by
  cases p <;> unfold Draw.args32 <;> infer_instance

/-- The wire protocol line of a drawing primitive: the verb, then the
arguments in decimal, single spaces between. -/
def Draw.line : Draw → String
  | .move_forward d => "FORWARD " ++ toString d
  | .move_backward d => "BACK " ++ toString d
  | .turn_right g => "RIGHT " ++ toString g
  | .turn_left g => "LEFT " ++ toString g
  | .set_position x y => "POS " ++ toString x ++ " " ++ toString y
  | .set_xy x y => "POS " ++ toString x ++ " " ++ toString y
  | .set_x x => "POSX " ++ toString x
  | .set_y y => "POSY " ++ toString y
  | .set_heading h => "HEADING " ++ toString h
  | .set_color c => "COLOR " ++ toString c
  | .delay_ms ms => "DELAY " ++ toString ms

/-! ## Environment -/

/-- Outcomes of the library calls, and the backend's activity on the file
system.  A value of this type is one possible behaviour of the outside world
during one call into the runtime. -/
structure Env where
  /-- Environment variables. -/
  getenv : String → Option CStr
  /-- Call `getaddrinfo (host, port, ..)`: `none` when it fails, else one
  entry per address returned, in list order: the descriptor `socket` returns
  for that address (`none` when it fails) and whether `connect` succeeds. -/
  getaddrinfo : CStr → CStr → Option (List (Option Nat × Bool))
  /-- The macro `POPEN (cmd, "w")`: the stream, `none` for `NULL`. -/
  popen : Strategy → CStr → Option Nat
  /-- The macro `PY_CMD`, the default interpreter command line. -/
  PY_CMD : CStr
  /-- Whether `CreatePipe` succeeds. -/
  CreatePipe : Strategy → Bool
  /-- Whether `CreateProcessA` succeeds on a command line. -/
  CreateProcessA : Strategy → CStr → Bool
  /-- Result of `_open_osfhandle`, `none` for `-1`. -/
  open_osfhandle : Strategy → Option Nat
  /-- Result of `_fdopen`, `none` for `NULL`. -/
  fdopen : Strategy → Nat → Option Nat
  /-- Result of `GetModuleFileNameA`: the length returned and the path. -/
  GetModuleFileNameA : Nat × CStr
  /-- Result of `mkstemp` on a template: the name chosen, `none` for `-1`. -/
  mkstemp : CStr → Option CStr
  /-- Result of `GetTempPathA`: the length returned and the directory. -/
  GetTempPathA : Nat × CStr
  /-- Result of `GetTempFileNameA (dir, prefix, 0, ..)`: the name chosen,
  `none` for `0`. -/
  GetTempFileNameA : CStr → CStr → Option CStr
  /-- The value `fscanf (f, "%d", &v)` stores for a number outside the range
  of `int`, which the C standard leaves open. -/
  scan_overflow : Int → Int
  /-- What the backend (and anything else) does to the file system:
  `backend 0` between the query command and the first check of the channel,
  `backend (i + 1)` during the sleep after check `i`. -/
  backend : Nat → FS → FS

/-- Function `getenv_safe`. -/
def getenv_safe (env : Env) (name : String) : Option CStr :=
  env.getenv name

/-- The test `p && p[0]` on a string pointer. -/
def nonempty : Option CStr → Bool
  | some (_ :: _) => true
  | _ => false

/-- The string behind a pointer, empty for `NULL`. -/
def str (p : Option CStr) : CStr := p.getD []

/-- The C `isspace` in the "C" locale. -/
def isspace (c : Char) : Bool :=
  c.toNat = 32 || (9 ≤ c.toNat && c.toNat ≤ 13)

/-- The call `sscanf (tcp_env, "%255[^:]:%63s", host, port)` on zeroed
buffers: the host and port it leaves. -/
def scan_host_port (s : CStr) : CStr × CStr :=
  let host := (s.takeWhile (fun c => c ≠ ':')).take 255
  if host = [] then ([], [])
  else
    match s.drop host.length with
    | ':' :: rest =>
      (host, ((rest.dropWhile isspace).takeWhile (fun c => !isspace c)).take 63)
    | _ => (host, [])

/-! ## Connector -/

def MAX_PATH : Nat := 260

def PY_LAUNCH_FALLBACK : CStr := "py.exe".toList

/-- The text of `snprintf (.., "\"%s\" -u \"%s\"", exe, script)`. -/
def quoted_cmd (exe script : CStr) : CStr :=
  "\"".toList ++ exe ++ "\" -u \"".toList ++ script ++ "\"".toList

/-- The text of `snprintf (.., "%s -u \"%s\"", launcher, script)`. -/
def launcher_cmd (launcher script : CStr) : CStr :=
  launcher ++ " -u \"".toList ++ script ++ "\"".toList

/-- The tail of `win_spawn_python` from `CreateProcessA` on: the stream
returned and the effects. -/
def win_create_process (env : Env) (site : Strategy) (cmdline : CStr) :
    Option Nat × List Event :=
  let ok := env.CreateProcessA site cmdline
  if !ok then (none, [.spawn site cmdline ok])
  else
    match env.open_osfhandle site with
    | none => (none, [.spawn site cmdline ok])
    | some fd => (env.fdopen site fd, [.spawn site cmdline ok])

/-- Function `win_spawn_python`: the stream it returns (`none` for `NULL`)
and its effects.  The argument `site` is the call site, for the oracles. -/
def win_spawn_python (env : Env) (site : Strategy) (exe_abs script_abs : Option CStr) :
    Option Nat × List Event :=
  if !env.CreatePipe site then (none, [])
  else if nonempty exe_abs && nonempty script_abs then
    win_create_process env site (snprintf 4096 (quoted_cmd (str exe_abs) (str script_abs)))
  else if nonempty script_abs then
    win_create_process env site
      (snprintf 4096 (launcher_cmd PY_LAUNCH_FALLBACK (str script_abs)))
  else (none, [])

/-- The path separators tested in the fallback of `rt_init`. -/
def is_sep (c : Char) : Bool := c = Char.ofNat 92 || c = '/'

/-- Cut a path at its last separator, if it has one. -/
def cut_last_sep (p : CStr) : CStr :=
  if p.any is_sep then ((p.reverse.dropWhile (fun c => !is_sep c)).drop 1).reverse else p

/-- Strategy 3 of `rt_init` (lines 264-283): the path-relative fallback. -/
def rt_init_fallback (win : Bool) (env : Env) (s : State) : State :=
  if win then
    let n := env.GetModuleFileNameA.1
    if 0 < n ∧ n < MAX_PATH then
      let exePath := cut_last_sep env.GetModuleFileNameA.2
      let script_abs := snprintf MAX_PATH (exePath ++ [Char.ofNat 92] ++ "drawing.py".toList)
      let r := win_spawn_python env .fallback none (some script_abs)
      { s.emit (r.2 ++ [.tried .fallback r.1.isSome]) with g_py := r.1 }
    else s.emit [.tried .fallback false]
  else
    let r := env.popen .fallback env.PY_CMD
    { s.emit [.spawn .fallback env.PY_CMD r.isSome, .tried .fallback r.isSome] with g_py := r }

/-- Strategy 2 of `rt_init` and what follows it (lines 246-283).  In the
non-Windows branch `free ((void*)override)` comes right after
`g_py = POPEN (override, "w")`, on the pointer `getenv` returned (line 38):
the run ends there, before the test of `g_py`. -/
def rt_init_override (win : Bool) (env : Env) (s : State) : State :=
  let override := getenv_safe env "TURTLE_PY_CMD"
  if nonempty override then
    if win then
      let r := win_spawn_python env .override none override
      if r.1.isSome then { s.emit (r.2 ++ [.tried .override true]) with g_py := r.1 }
      else rt_init_fallback win env { s.emit (r.2 ++ [.tried .override false]) with g_py := r.1 }
    else
      let r := env.popen .override (str override)
      { s.emit [.spawn .override (str override) r.isSome, .tried .override r.isSome] with
        g_py := r, aborted := true }
  else rt_init_fallback win env s

/-- The argument `(p && p[0]) ? p : NULL`. -/
def ptr_or_null (p : Option CStr) : Option CStr :=
  if nonempty p then p else none

/-- Strategy 1 of `rt_init` and what follows it (lines 221-283). -/
def rt_init_exe_script (win : Bool) (env : Env) (s : State) : State :=
  let exe_raw := getenv_safe env "TURTLE_PY_EXE"
  let scr_raw := getenv_safe env "TURTLE_PY_SCRIPT"
  if win then
    if nonempty scr_raw then
      let r := win_spawn_python env .exe_script (ptr_or_null exe_raw) scr_raw
      if r.1.isSome then { s.emit (r.2 ++ [.tried .exe_script true]) with g_py := r.1 }
      else
        rt_init_override win env { s.emit (r.2 ++ [.tried .exe_script false]) with g_py := r.1 }
    else rt_init_override win env s
  else
    if nonempty exe_raw && nonempty scr_raw then
      let cmd := snprintf 4096 (quoted_cmd (str exe_raw) (str scr_raw))
      let r := env.popen .exe_script cmd
      let e := Event.spawn .exe_script cmd r.isSome
      if r.isSome then { s.emit [e, .tried .exe_script true] with g_py := r }
      else rt_init_override win env { s.emit [e, .tried .exe_script false] with g_py := r }
    else rt_init_override win env s

/-- The loop over the addresses `getaddrinfo` returned: `socket`, then
`connect`, and on success `g_sock = s; break`.  Returns the socket stored in
`g_sock`, if any, and the effects. -/
def connect_loop : List (Option Nat × Bool) → Option Nat × List Event
  | [] => (none, [])
  | (none, _) :: ps => connect_loop ps
  | (some fd, true) :: _ => (some fd, [.connect fd true])
  | (some fd, false) :: ps =>
    ((connect_loop ps).1, [.connect fd false, .closesocket fd] ++ (connect_loop ps).2)

/-- Strategy 0 of `rt_init` up to its test of `g_sock` (lines 177-212): the
socket stored in `g_sock`, if any, and the effects. -/
def tcp_connect (win : Bool) (env : Env) (tcp_env : CStr) : Option Nat × List Event :=
  let hp := scan_host_port tcp_env
  let pre := (if win then [Event.wsa_startup] else []) ++ [Event.getaddrinfo hp.1 hp.2]
  match env.getaddrinfo hp.1 hp.2 with
  | some res => ((connect_loop res).1, pre ++ (connect_loop res).2)
  | none => (none, pre)

/-- Function `rt_init`. -/
def rt_init (win : Bool) (env : Env) (s : State) : State :=
  if s.active then s
  else
    let tcp_env := getenv_safe env "TURTLE_TCP_ADDR"
    if nonempty tcp_env then
      let r := tcp_connect win env (str tcp_env)
      match r.1 with
      | some fd => { s.emit (r.2 ++ [.tried .tcp true]) with g_sock := some fd }
      | none => rt_init_exe_script win env (s.emit (r.2 ++ [.tried .tcp false]))
    else rt_init_exe_script win env s

/-- Function `rt_shutdown`.  The event `closesocket` also stands for the
`close` of the other branch. -/
def rt_shutdown (win : Bool) (s : State) : State :=
  match s.g_sock with
  | some h =>
    let s1 := send_cmd "QUIT".toList s
    let s2 := { s1.emit [.sleep 50, .closesocket h] with g_sock := none }
    if win then s2.emit [.wsa_cleanup] else s2
  | none =>
    match s.g_py with
    | some fp =>
      let s1 := send_cmd "QUIT".toList s
      { s1.emit [if win then .fclose fp else .pclose fp] with g_py := none }
    | none => s

/-! ## Synchronous query bridge -/

/-- File system after a file was created empty at `p`. -/
def fs_create (fs : FS) (p : CStr) : FS :=
  fun q => if q = p then some [] else fs q

/-- File system after `remove (p)` / `DeleteFileA (p)`. -/
def fs_remove (fs : FS) (p : CStr) : FS :=
  fun q => if q = p then none else fs q

/-- The `int` that `fscanf` stores for the number `z` it read: `z` itself
when it is in range, else what the library makes of it. -/
def store_int (env : Env) (z : Int) : Int :=
  if int32 z then z else env.scan_overflow z

/-- Value of a run of decimal digits. -/
def digits_value (ds : CStr) : Nat :=
  ds.foldl (fun a c => 10 * a + (c.toNat - 48)) 0

/-- The longest run of digits at the head of the input, if not empty. -/
def scan_digits (s : CStr) : Option Nat :=
  match s.takeWhile Char.isDigit with
  | [] => none
  | ds => some (digits_value ds)

/-- The call `fscanf (f, "%d", &v) == 1` on a file of the given content:
white space is skipped, then an optional sign and at least one digit are
read.  `some v` when it returns 1, with the value stored. -/
def fscanf_d (env : Env) (content : CStr) : Option Int :=
  match content.dropWhile isspace with
  | '-' :: rest => (scan_digits rest).map (fun n => store_int env (-(Int.ofNat n)))
  | '+' :: rest => (scan_digits rest).map (fun n => store_int env (Int.ofNat n))
  | rest => (scan_digits rest).map (fun n => store_int env (Int.ofNat n))

/-- Function `read_int_file`: `some v` for return value 1 with `*out_val = v`,
`none` for return value 0. -/
def read_int_file (env : Env) (fs : FS) (path : CStr) : Option Int :=
  match fs path with
  | none => none
  | some content => fscanf_d env content

def step_ms : Nat := 10

def timeout_ms : Nat := 1000

/-- Allocation of the temporary channel at the head of each query: `mkstemp`
on `/tmp/<tag>XXXXXX` then `close`, or `GetTempPathA` and
`GetTempFileNameA (dir, tag, 0, tmp)`.  Both create the file, empty. -/
def temp_channel (win : Bool) (env : Env) (tag : String) (s : State) :
    Option (CStr × State) :=
  if win then
    let n := env.GetTempPathA.1
    if n = 0 ∨ n > MAX_PATH then none
    else
      match env.GetTempFileNameA env.GetTempPathA.2 tag.toList with
      | none => none
      | some tmp => some (tmp, { s with fs := fs_create s.fs tmp })
  else
    match env.mkstemp ("/tmp/" ++ tag ++ "XXXXXX").toList with
    | none => none
    | some tmp => some (tmp, { s with fs := fs_create s.fs tmp })

/-- One check of the channel in the poll loop; on Windows
`GetFileAttributesExA` is asked first whether the file is there. -/
def poll_once (win : Bool) (env : Env) (fs : FS) (tmp : CStr) : Option Int :=
  if win then
    if (fs tmp).isSome then read_int_file env fs tmp else none
  else read_int_file env fs tmp

/-- The poll loop `while (waited < timeout_ms) ..` with the statements after
it, the same text in `get_heading`, `rand_int` and `pow_int`.  The argument
`i` counts the checks made, for the oracle. -/
def poll_loop (win : Bool) (env : Env) (tmp : CStr) (waited i : Nat) (s : State) :
    Int × State :=
  if waited < timeout_ms then
    match poll_once win env s.fs tmp with
    | some val => (val, { s with fs := fs_remove s.fs tmp })
    | none =>
      poll_loop win env tmp (waited + step_ms) (i + 1)
        { s.emit [.sleep step_ms] with fs := env.backend (i + 1) s.fs }
  else (0, { s with fs := fs_remove s.fs tmp })
termination_by timeout_ms - waited
decreasing_by
  simp only [timeout_ms, step_ms] at *
  omega

/-- The part of a query after the channel was allocated: send the command,
then poll. -/
def query (win : Bool) (env : Env) (cmd tmp : CStr) (s : State) : Int × State :=
  let s1 := send_cmd (snprintf 512 cmd) s
  poll_loop win env tmp 0 0 { s1 with fs := env.backend 0 s1.fs }

/-- Function `get_heading`. -/
def get_heading (win : Bool) (env : Env) (s : State) : Int × State :=
  match temp_channel win env "tgh" s with
  | none => (0, s)
  | some (tmp, s0) =>
    query win env ("GETHEADING \"".toList ++ tmp ++ "\"".toList) tmp s0

/-- Function `rand_int`. -/
def rand_int (win : Bool) (env : Env) (maxv : Int) (s : State) : Int × State :=
  if maxv ≤ 0 then (0, s)
  else
    match temp_channel win env "rnd" s with
    | none => (0, s)
    | some (tmp, s0) =>
      query win env ("RANDINT ".toList ++ fmt_d maxv ++ " \"".toList ++ tmp ++ "\"".toList)
        tmp s0

/-- Function `pow_int`. -/
def pow_int (win : Bool) (env : Env) (a b : Int) (s : State) : Int × State :=
  match temp_channel win env "pow" s with
  | none => (0, s)
  | some (tmp, s0) =>
    query win env
      ("POWINT ".toList ++ fmt_d a ++ " ".toList ++ fmt_d b ++ " \"".toList ++ tmp
        ++ "\"".toList) tmp s0

/-- Follows the words "the channel file contains an ASCII integer `v`": the
file is there and holds optional white space, then `v` in decimal, then
nothing or a byte that is not a digit. -/
def holds_ascii_integer (file : Option CStr) (v : Int) : Prop :=
  ∃ ws rest : CStr, file = some (ws ++ (toString v).toList ++ rest) ∧
    (∀ c ∈ ws, isspace c = true) ∧ (∀ c ∈ rest.head?, c.isDigit = false)

/-- The three query primitives, each with its arguments. -/
inductive Query where
  | get_heading
  | rand_int (maxv : Int)
  | pow_int (a b : Int)

/-- Call of a query primitive. -/
def Query.run (win : Bool) (env : Env) : Query → State → Int × State
  | .get_heading => LogoTec.get_heading win env
  | .rand_int maxv => LogoTec.rand_int win env maxv
  | .pow_int a b => LogoTec.pow_int win env a b

/-- The name tag of the temporary channel of a query. -/
def Query.tag : Query → String
  | .get_heading => "tgh"
  | .rand_int _ => "rnd"
  | .pow_int _ _ => "pow"

/-- The query goes to the backend: `rand_int` only with `maxv > 0`. -/
def Query.asks : Query → Prop
  | .rand_int maxv => 0 < maxv
  | _ => True

/-- File system `j` sleeps after the one at check `i`. -/
def fs_after (env : Env) : Nat → FS → Nat → FS
  | _, fs, 0 => fs
  | i, fs, j + 1 => fs_after env (i + 1) (env.backend (i + 1) fs) j

/-- File system at check `k` of the poll loop (checks are counted from 0),
when `fs0` is the file system right after the channel was allocated. -/
def fs_at (env : Env) (fs0 : FS) (k : Nat) : FS :=
  fs_after env 0 (env.backend 0 fs0) k

/-! ## Programs over the runtime -/

/-- One call into the runtime, with the behaviour of the outside world during
it: `rt_init`, `rt_shutdown`, a drawing primitive with or without arguments,
or a query. -/
inductive Op where
  | rt_init (env : Env)
  | rt_shutdown
  | draw (p : Draw)
  | pen_up
  | pen_down
  | hide_turtle
  | center_turtle
  | query (env : Env) (q : Query)

/-- State after the call, when it runs. -/
def Op.exec (win : Bool) : Op → State → State
  | .rt_init env, s => LogoTec.rt_init win env s
  | .rt_shutdown, s => LogoTec.rt_shutdown win s
  | .draw p, s => p.run s
  | .pen_up, s => LogoTec.pen_up s
  | .pen_down, s => LogoTec.pen_down s
  | .hide_turtle, s => LogoTec.hide_turtle s
  | .center_turtle, s => LogoTec.center_turtle s
  | .query env q, s => (q.run win env s).2

/-- State after a call: once the process was aborted no call runs. -/
def Op.step (win : Bool) (op : Op) (s : State) : State :=
  if s.aborted then s else op.exec win s

/-- The call is `rt_shutdown`. -/
def Op.is_shutdown : Op → Bool
  | .rt_shutdown => true
  | _ => false

/-- State after a sequence of calls. -/
def run (win : Bool) : List Op → State → State
  | [], s => s
  | op :: ops, s => run win ops (op.step win s)

/-- States the program can be in: those a sequence of calls leads to from
the state at program start. -/
def Reachable (win : Bool) (s : State) : Prop :=
  ∃ (fs : FS) (ops : List Op), s = run win ops (State.initial fs)

/-! ## Observations on traces -/

/-- The strategies a trace tried, in order, each with its outcome. -/
def attempts : List Event → List (Strategy × Bool)
  | [] => []
  | .tried st ok :: es => (st, ok) :: attempts es
  | _ :: es => attempts es

/-- The process creations of a trace: call site, command line, outcome. -/
def spawns : List Event → List (Strategy × CStr × Bool)
  | [] => []
  | .spawn site cmd ok :: es => (site, cmd, ok) :: spawns es
  | _ :: es => spawns es

/-- A strategy is configured: the environment holds what its guard in
`rt_init` asks for. -/
def configured (win : Bool) (env : Env) : Strategy → Bool
  | .tcp => nonempty (getenv_safe env "TURTLE_TCP_ADDR")
  | .exe_script =>
    if win then nonempty (getenv_safe env "TURTLE_PY_SCRIPT")
    else nonempty (getenv_safe env "TURTLE_PY_EXE") && nonempty (getenv_safe env "TURTLE_PY_SCRIPT")
  | .override => nonempty (getenv_safe env "TURTLE_PY_CMD")
  | .fallback => true

/-- Both an executable path and a script path are configured. -/
def exe_and_script (env : Env) : Bool :=
  nonempty (getenv_safe env "TURTLE_PY_EXE") && nonempty (getenv_safe env "TURTLE_PY_SCRIPT")

/-- The command line of the executable + script strategy in the non-Windows
branch. -/
def exe_script_cmd (env : Env) : CStr :=
  snprintf 4096
    (quoted_cmd (str (getenv_safe env "TURTLE_PY_EXE")) (str (getenv_safe env "TURTLE_PY_SCRIPT")))

/-- The command line of the executable + script strategy in the Windows
branch: the launcher stands in for a missing executable path. -/
def exe_script_cmd_win (env : Env) : CStr :=
  snprintf 4096
    (if nonempty (getenv_safe env "TURTLE_PY_EXE") = true then
      quoted_cmd (str (getenv_safe env "TURTLE_PY_EXE")) (str (getenv_safe env "TURTLE_PY_SCRIPT"))
    else launcher_cmd PY_LAUNCH_FALLBACK (str (getenv_safe env "TURTLE_PY_SCRIPT")))

/-- The process creations of a trace made at the call site of the executable
+ script strategy. -/
def exe_script_spawns (es : List Event) : List (Strategy × CStr × Bool) :=
  (spawns es).filter (fun x => decide (x.1 = .exe_script))

/-- Strategies after whose attempt the run ends whatever the outcome: the
override command line in the non-Windows branch, where the string is freed. -/
def ends_run (win : Bool) : Strategy → Bool
  | .override => !win
  | _ => false

/-- Attempt lists of a connector that walks the given strategies in order,
skips the unconfigured ones, stops at the first success, and stops after a
strategy for which `e` holds. -/
def Chain (c e : Strategy → Bool) : List Strategy → List (Strategy × Bool) → Prop
  | [], a => a = []
  | st :: rest, a =>
    if c st then
      a = [(st, true)] ∨ (e st = true ∧ a = [(st, false)]) ∨
        (e st = false ∧ ∃ a', a = (st, false) :: a' ∧ Chain c e rest a')
    else Chain c e rest a

/-- The library calls one attempt of a strategy makes, as effects: the block
of `rt_init` for that strategy, without the test that follows it. -/
def strategy_events (win : Bool) (env : Env) : Strategy → List Event
  | .tcp => (tcp_connect win env (str (getenv_safe env "TURTLE_TCP_ADDR"))).2
  | .exe_script =>
    if win then
      (win_spawn_python env .exe_script (ptr_or_null (getenv_safe env "TURTLE_PY_EXE"))
        (getenv_safe env "TURTLE_PY_SCRIPT")).2
    else
      [.spawn .exe_script (exe_script_cmd env)
        (env.popen .exe_script (exe_script_cmd env)).isSome]
  | .override =>
    if win then (win_spawn_python env .override none (getenv_safe env "TURTLE_PY_CMD")).2
    else
      [.spawn .override (str (getenv_safe env "TURTLE_PY_CMD"))
        (env.popen .override (str (getenv_safe env "TURTLE_PY_CMD"))).isSome]
  | .fallback =>
    if win then
      if 0 < env.GetModuleFileNameA.1 ∧ env.GetModuleFileNameA.1 < MAX_PATH then
        (win_spawn_python env .fallback none
          (some (snprintf MAX_PATH (cut_last_sep env.GetModuleFileNameA.2 ++ [Char.ofNat 92] ++
            "drawing.py".toList)))).2
      else []
    else [.spawn .fallback env.PY_CMD (env.popen .fallback env.PY_CMD).isSome]

/-- The trace of a run of the connector with the given attempts: for each
attempt in turn, the library calls of its strategy, then its end mark. -/
def attempt_events (win : Bool) (env : Env) : List (Strategy × Bool) → List Event
  | [] => []
  | x :: a => strategy_events win env x.1 ++ [.tried x.1 x.2] ++ attempt_events win env a

/-- What the executable + script strategy creates, by branch. -/
def exe_script_expected (win : Bool) (env : Env) : List (Strategy × CStr × Bool) :=
  if win then
    if nonempty (getenv_safe env "TURTLE_PY_SCRIPT") = true ∧ env.CreatePipe .exe_script = true then
      [(.exe_script, exe_script_cmd_win env,
        env.CreateProcessA .exe_script (exe_script_cmd_win env))]
    else []
  else
    if exe_and_script env = true then
      [(.exe_script, exe_script_cmd env, (env.popen .exe_script (exe_script_cmd env)).isSome)]
    else []

/-- At most one of the two globals holds a transport. -/
def one_transport (s : State) : Prop :=
  ¬ (s.g_sock.isSome = true ∧ s.g_py.isSome = true)

/-! ## Sample environments -/

/-- What glibc stores for a number outside the range of `int`: the number is
first held in a `long` of 64 bits, at the nearest end of its range, and the
low 32 bits of that are stored. -/
def glibc_overflow (z : Int) : Int :=
  (max (min z 9223372036854775807) (-9223372036854775808) + 2147483648) % 4294967296
    - 2147483648

/-- An environment with nothing configured in which every call fails and
the backend never touches the file system. -/
def dead_env : Env where
  getenv := fun _ => none
  getaddrinfo := fun _ _ => none
  popen := fun _ _ => none
  PY_CMD := "python3 -u drawing.py".toList
  CreatePipe := fun _ => false
  CreateProcessA := fun _ _ => false
  open_osfhandle := fun _ => none
  fdopen := fun _ _ => none
  GetModuleFileNameA := (0, [])
  mkstemp := fun _ => none
  GetTempPathA := (0, [])
  GetTempFileNameA := fun _ _ => none
  scan_overflow := glibc_overflow
  backend := fun _ fs => fs

/-- The channel name the sample environments allocate. -/
def sample_tmp : CStr := "/tmp/tghAb12Cd".toList

/-- A backend stub that writes `text` into the sample channel during the
sleep before check `at_check`, in an environment where temporary names can be
allocated. -/
def stub_env (at_check : Nat) (text : String) : Env :=
  { dead_env with
    mkstemp := fun _ => some sample_tmp
    GetTempPathA := (3, "C:/".toList)
    GetTempFileNameA := fun _ _ => some sample_tmp
    backend := fun i fs =>
      if i = at_check then fun q => if q = sample_tmp then some text.toList else fs q else fs }

/-- An environment with nothing configured in which the default interpreter
can be started. -/
def pipe_env : Env :=
  { dead_env with popen := fun _ _ => some 7 }

/-- An environment with only the TCP address configured.  The backend listens
when `up` is set; two candidate addresses come before the one that answers. -/
def sock_env (up : Bool) : Env :=
  { dead_env with
    getenv := fun n => if n = "TURTLE_TCP_ADDR" then some "localhost:9999".toList else none
    getaddrinfo := fun _ _ => some [(none, false), (some 3, false), (some 4, up)]
    popen := fun _ _ => some 7 }

/-- An environment where only the script path is configured, and processes
can be created. -/
def script_env : Env :=
  { dead_env with
    getenv := fun n => if n = "TURTLE_PY_SCRIPT" then some "draw.py".toList else none
    popen := fun _ _ => some 7
    CreatePipe := fun _ => true
    CreateProcessA := fun _ _ => true
    open_osfhandle := fun _ => some 5
    fdopen := fun _ _ => some 7 }

/-- An environment where the executable and the script are configured, and
the TCP address too, with nothing listening there. -/
def full_env : Env :=
  { dead_env with
    getenv := fun n =>
      if n = "TURTLE_TCP_ADDR" then some "localhost:9999".toList
      else if n = "TURTLE_PY_EXE" then some "python3".toList
      else if n = "TURTLE_PY_SCRIPT" then some "draw.py".toList
      else none
    popen := fun _ _ => some 7
    CreatePipe := fun _ => true
    CreateProcessA := fun _ _ => true
    open_osfhandle := fun _ => some 5
    fdopen := fun _ _ => some 7 }

/-- The state at program start with an empty file system. -/
def boot : State := State.initial (fun _ => none)

/-- The state `boot` after the sample channel was created. -/
def boot_tmp : State :=
  { g_sock := none, g_py := none, fs := fs_create (fun _ => none) sample_tmp, trace := [],
    aborted := false }

/-! ## Facts about the encoder and the transport -/

theorem wire_append (a b : List Event) : wire (a ++ b) = wire a ++ wire b := by
  induction a with
  | nil => rfl
  | cons e es ih => simp [wire, ih]

theorem slept_append (a b : List Event) : slept (a ++ b) = slept a + slept b := by
  induction a with
  | nil => simp [slept]
  | cons e es ih => cases e <;> simp [slept, ih, Nat.add_assoc]

theorem since_emit (s : State) (es : List Event) : since s (s.emit es) = es := by
  simp [since, State.emit]

theorem snprintf_fits (size : Nat) (text : CStr) (h : text.length ≤ size - 1) :
    snprintf size text = text := by
  unfold snprintf
  exact List.take_of_length_le h

theorem toDigits_length_le (n : Nat) (h : n < 10 ^ 10) : (Nat.toDigits 10 n).length ≤ 10 := by
  unfold Nat.toDigits
  exact Nat.toDigitsCore_length 10 (by decide) (n + 1) n 10 h (by decide)

theorem fmt_d_length (d : Int) (h : int32 d) : (fmt_d d).length ≤ 11 := by
  unfold int32 at h
  unfold fmt_d
  split
  · have : d.natAbs < 10 ^ 10 := by omega
    have := toDigits_length_le _ this
    simp only [List.length_cons]
    omega
  · have : d.toNat < 10 ^ 10 := by omega
    have := toDigits_length_le _ this
    omega

/-- The model of `%d` is the decimal text of the integer. -/
theorem toString_eq_fmt_d (d : Int) : (toString d).toList = fmt_d d := by
  cases d with
  | ofNat n =>
    have h : ¬ (Int.ofNat n < 0) := by simp
    simp only [fmt_d, h, if_false]
    rfl
  | negSucc n =>
    have h : Int.negSucc n < 0 := Int.negSucc_lt_zero n
    simp only [fmt_d, h, if_true]
    rfl

theorem send_cmd_wire (txt : CStr) (s : State) (ha : s.active = true) :
    wire (since s (send_cmd txt s)) = txt ++ [LF] := by
  unfold send_cmd
  cases hs : s.g_sock with
  | some h => simp [since_emit, wire, Event.bytes]
  | none =>
    cases hp : s.g_py with
    | some fp => simp [since_emit, wire, Event.bytes]
    | none => simp [State.active, hs, hp] at ha

theorem send_cmd_globals (txt : CStr) (s : State) :
    (send_cmd txt s).g_sock = s.g_sock ∧ (send_cmd txt s).g_py = s.g_py ∧
      (send_cmd txt s).fs = s.fs := by
  unfold send_cmd
  split
  · simp [State.emit]
  · split <;> simp [State.emit]


/-! ## C1: drawing primitives -/

theorem snprintf_verb_int (verb : String) (d : Int) (hv : verb.length ≤ 20) (hd : int32 d) :
    snprintf 64 (verb.toList ++ fmt_d d) = (verb ++ toString d).toList := by
  have hl := fmt_d_length d hd
  have hv2 : verb.toList.length ≤ 20 := hv
  rw [snprintf_fits _ _ (by simp only [List.length_append]; omega)]
  simp [String.toList, String.data_append, ← toString_eq_fmt_d]

theorem snprintf_pos (x y : Int) (hx : int32 x) (hy : int32 y) :
    snprintf 64 ("POS ".toList ++ fmt_d x ++ " ".toList ++ fmt_d y) =
      ("POS " ++ toString x ++ " " ++ toString y).toList := by
  have hlx := fmt_d_length x hx
  have hly := fmt_d_length y hy
  have h4 : "POS ".toList.length = 4 := rfl
  have h1 : " ".toList.length = 1 := rfl
  rw [snprintf_fits _ _ (by simp only [List.length_append, h4, h1]; omega)]
  simp [String.toList, String.data_append, ← toString_eq_fmt_d]

theorem draw_run_eq (p : Draw) (s : State) (hargs : p.args32) :
    p.run s = send_cmd p.line.toList s := by
  cases p with
  | set_position x y =>
    simp only [Draw.run, set_position, Draw.line, snprintf_pos x y hargs.1 hargs.2]
  | set_xy x y =>
    simp only [Draw.run, set_xy, Draw.line, snprintf_pos x y hargs.1 hargs.2]
  | move_forward d =>
    simp only [Draw.run, move_forward, Draw.line, snprintf_verb_int "FORWARD " d (by decide) hargs]
  | move_backward d =>
    simp only [Draw.run, move_backward, Draw.line, snprintf_verb_int "BACK " d (by decide) hargs]
  | turn_right d =>
    simp only [Draw.run, turn_right, Draw.line, snprintf_verb_int "RIGHT " d (by decide) hargs]
  | turn_left d =>
    simp only [Draw.run, turn_left, Draw.line, snprintf_verb_int "LEFT " d (by decide) hargs]
  | set_x d =>
    simp only [Draw.run, set_x, Draw.line, snprintf_verb_int "POSX " d (by decide) hargs]
  | set_y d =>
    simp only [Draw.run, set_y, Draw.line, snprintf_verb_int "POSY " d (by decide) hargs]
  | set_heading d =>
    simp only [Draw.run, set_heading, Draw.line, snprintf_verb_int "HEADING " d (by decide) hargs]
  | set_color d =>
    simp only [Draw.run, set_color, Draw.line, snprintf_verb_int "COLOR " d (by decide) hargs]
  | delay_ms d =>
    simp only [Draw.run, delay_ms, Draw.line, snprintf_verb_int "DELAY " d (by decide) hargs]

/-- C1: for 32-bit arguments and an active transport, a drawing primitive is
exactly one `send_cmd` of its protocol line (verb, then the arguments in
decimal, single spaces between; the 64-byte buffer cuts nothing), so the bytes
it delivers to the transport are that line and one newline: two `send` calls
on the socket, or `fputs`, `fputc`, `fflush` on the pipe, and no other effect.
It changes neither the globals nor the file system. -/
theorem draw_sends_exact_line (p : Draw) (s : State) (hargs : p.args32)
    (hact : s.active = true) :
    p.run s = send_cmd p.line.toList s ∧
      wire (since s (p.run s)) = (p.line ++ "\n").toList ∧
      (∀ h, s.g_sock = some h →
        since s (p.run s) = [.send h p.line.toList, .send h [LF]]) ∧
      (∀ fp, s.g_sock = none → s.g_py = some fp →
        since s (p.run s) = [.fputs fp p.line.toList, .fputc fp LF, .fflush fp]) ∧
      (p.run s).g_sock = s.g_sock ∧ (p.run s).g_py = s.g_py ∧ (p.run s).fs = s.fs := by
  rw [draw_run_eq p s hargs]
  refine ⟨rfl, ?_, ?_, ?_, send_cmd_globals _ s⟩
  · rw [send_cmd_wire _ s hact]
    simp [String.toList, String.data_append]
    rfl
  · intro h hs
    simp only [send_cmd, hs, since_emit]
  · intro fp hs hp
    simp only [send_cmd, hs, hp, since_emit]

/-- Witness for C1: `set_position` at the two ends of the `int` range, over a
socket. -/
theorem draw_sends_exact_line_witness :
    (Draw.set_position (-2147483648) 2147483647).args32 ∧
      (State.mk (some 3) none (fun _ => none) [] false).active = true ∧
      wire (since (State.mk (some 3) none (fun _ => none) [] false)
        ((Draw.set_position (-2147483648) 2147483647).run
          (State.mk (some 3) none (fun _ => none) [] false))) =
        "POS -2147483648 2147483647\n".toList :=
  ⟨by decide, rfl,
    (draw_sends_exact_line (Draw.set_position (-2147483648) 2147483647)
      (State.mk (some 3) none (fun _ => none) [] false) (by decide) rfl).2.1⟩

/-! ## C4: `rand_int` with a non-positive bound -/

/-- C4: for `maxv <= 0`, `rand_int` returns 0 and leaves the whole state as
it was: the same globals, the same file system (no temporary file created)
and the same trace (nothing sent, no sleep). -/
theorem rand_int_nonpositive (win : Bool) (env : Env) (maxv : Int) (s : State)
    (h : maxv ≤ 0) : rand_int win env maxv s = (0, s) := by
  simp [rand_int, h]

/-- Witness for C4: `rand_int (0)` and a backend that would answer. -/
theorem rand_int_nonpositive_witness :
    (0 : Int) ≤ 0 ∧ rand_int false (stub_env 0 "7") 0 boot = (0, boot) :=
  ⟨Int.le_refl 0, rand_int_nonpositive false (stub_env 0 "7") 0 boot (Int.le_refl 0)⟩

/-! ## C2, C3: reading the channel, and the poll loop -/

theorem digitChar_facts (d : Nat) (h : d < 10) :
    (Nat.digitChar d).isDigit = true ∧ (Nat.digitChar d).toNat - 48 = d ∧
      isspace (Nat.digitChar d) = false ∧ Nat.digitChar d ≠ '-' ∧ Nat.digitChar d ≠ '+' := by
  interval_cases d <;> decide

theorem toDigitsCore_all_digits :
    ∀ (f n : Nat) (acc : CStr), (∀ c ∈ acc, c.isDigit = true) →
      ∀ c ∈ Nat.toDigitsCore 10 f n acc, c.isDigit = true := by
  intro f
  induction f with
  | zero => intro n acc h c hc; exact h c (by simpa [Nat.toDigitsCore] using hc)
  | succ f ih =>
    intro n acc h c hc
    have hd := (digitChar_facts (n % 10) (Nat.mod_lt _ (by decide))).1
    have hacc : ∀ c ∈ Nat.digitChar (n % 10) :: acc, c.isDigit = true := by
      intro c hc
      rcases List.mem_cons.mp hc with e | e
      · rw [e]; exact hd
      · exact h c e
    simp only [Nat.toDigitsCore] at hc
    split at hc
    · exact hacc c hc
    · exact ih _ _ hacc c hc

theorem toDigitsCore_value :
    ∀ (f n : Nat) (acc : CStr), n < f →
      List.foldl (fun a c => 10 * a + (c.toNat - 48)) 0 (Nat.toDigitsCore 10 f n acc) =
        List.foldl (fun a (c : Char) => 10 * a + (c.toNat - 48)) n acc := by
  intro f
  induction f with
  | zero => intro n acc h; omega
  | succ f ih =>
    intro n acc h
    have hd := (digitChar_facts (n % 10) (Nat.mod_lt _ (by decide))).2.1
    simp only [Nat.toDigitsCore]
    split
    · rename_i h0
      have : n % 10 = n := by omega
      rw [this] at hd
      simp only [List.foldl_cons, this, hd, Nat.mul_zero, Nat.zero_add]
    · rename_i h0
      rw [ih _ _ (by omega)]
      simp only [List.foldl_cons, hd]
      congr 1
      omega

theorem toDigitsCore_ne_nil (f n : Nat) (acc : CStr) :
    Nat.toDigitsCore 10 (f + 1) n acc ≠ [] := by
  induction f generalizing n acc with
  | zero => simp [Nat.toDigitsCore]
  | succ f ih =>
    rw [Nat.toDigitsCore]
    split
    · simp
    · exact ih _ _

theorem takeWhile_append_stop (p : Char → Bool) (l rest : CStr)
    (hl : ∀ c ∈ l, p c = true) (hr : ∀ c ∈ rest.head?, p c = false) :
    (l ++ rest).takeWhile p = l := by
  induction l with
  | nil =>
    cases rest with
    | nil => rfl
    | cons c cs =>
      have := hr c (by simp)
      simp [List.takeWhile_cons, this]
  | cons c cs ih =>
    have hc := hl c (List.mem_cons_self _ _)
    simp only [List.cons_append, List.takeWhile_cons, hc, if_true]
    rw [ih (fun d hd => hl d (List.mem_cons_of_mem _ hd))]

theorem dropWhile_append_all (p : Char → Bool) (ws l : CStr) (hw : ∀ c ∈ ws, p c = true) :
    (ws ++ l).dropWhile p = l.dropWhile p := by
  induction ws with
  | nil => rfl
  | cons c cs ih =>
    have hc := hw c (List.mem_cons_self _ _)
    simp only [List.cons_append, List.dropWhile_cons, hc, if_true]
    exact ih (fun d hd => hw d (List.mem_cons_of_mem _ hd))

theorem scan_digits_toDigits (n : Nat) (rest : CStr)
    (hr : ∀ c ∈ rest.head?, c.isDigit = false) :
    scan_digits (Nat.toDigits 10 n ++ rest) = some n := by
  have hall : ∀ c ∈ Nat.toDigits 10 n, c.isDigit = true :=
    toDigitsCore_all_digits (n + 1) n [] (by simp)
  have hne : Nat.toDigits 10 n ≠ [] := toDigitsCore_ne_nil n n []
  have hval : digits_value (Nat.toDigits 10 n) = n := by
    unfold digits_value Nat.toDigits
    rw [toDigitsCore_value (n + 1) n [] (by omega)]
    rfl
  unfold scan_digits
  rw [takeWhile_append_stop _ _ _ hall hr]
  split
  · rename_i h; exact absurd h hne
  · rw [hval]

theorem toDigits_head (n : Nat) :
    ∃ c cs, Nat.toDigits 10 n = c :: cs ∧ c.isDigit = true := by
  have hall : ∀ c ∈ Nat.toDigits 10 n, c.isDigit = true :=
    toDigitsCore_all_digits (n + 1) n [] (by simp)
  have hne : Nat.toDigits 10 n ≠ [] := toDigitsCore_ne_nil n n []
  cases h : Nat.toDigits 10 n with
  | nil => exact absurd h hne
  | cons c cs => exact ⟨c, cs, rfl, hall c (by rw [h]; exact List.mem_cons_self _ _)⟩

theorem isDigit_facts (c : Char) (h : c.isDigit = true) :
    isspace c = false ∧ c ≠ '-' ∧ c ≠ '+' := by
  simp only [Char.isDigit, Bool.and_eq_true, decide_eq_true_eq] at h
  have h1 : 48 ≤ c.toNat := h.1
  have h2 : c.toNat ≤ 57 := h.2
  refine ⟨?_, ?_, ?_⟩
  · simp only [isspace, Bool.or_eq_false_iff, Bool.and_eq_false_iff, decide_eq_false_iff_not]
    omega
  · intro e; rw [e] at h1; exact absurd h1 (by decide)
  · intro e; rw [e] at h1; exact absurd h1 (by decide)

theorem fscanf_d_digits (env : Env) (n : Nat) (rest : CStr)
    (hr : ∀ c ∈ rest.head?, c.isDigit = false) :
    fscanf_d env (Nat.toDigits 10 n ++ rest) = some (store_int env (Int.ofNat n)) := by
  obtain ⟨c, cs, hcs, hc⟩ := toDigits_head n
  obtain ⟨h1, h2, h3⟩ := isDigit_facts c hc
  have hs := scan_digits_toDigits n rest hr
  unfold fscanf_d
  rw [hcs] at hs ⊢
  simp only [List.cons_append] at hs
  simp only [List.cons_append, List.dropWhile_cons, h1]
  split
  · rename_i heq; simp at heq; exact absurd heq.1 h2
  · rename_i heq; simp at heq; exact absurd heq.1 h3
  · simp [hs]

theorem store_int_of_int32 (env : Env) (v : Int) (h : int32 v) : store_int env v = v := by
  simp [store_int, h]

/-- Reading back what `%d` prints: the decimal text of a C `int`, followed by
nothing or by a byte that is not a digit, is scanned to that integer. -/
theorem fscanf_d_fmt_d (env : Env) (v : Int) (rest : CStr) (h : int32 v)
    (hr : ∀ c ∈ rest.head?, c.isDigit = false) :
    fscanf_d env (fmt_d v ++ rest) = some v := by
  unfold fmt_d
  by_cases hneg : v < 0
  · have hsp : isspace '-' = false := by decide
    have e : -(Int.ofNat v.natAbs) = v := by
      rw [Int.ofNat_eq_coe]
      omega
    rw [if_pos hneg]
    unfold fscanf_d
    simp only [List.cons_append, List.dropWhile_cons, hsp, Bool.false_eq_true, if_false]
    simp only [scan_digits_toDigits _ _ hr, Option.map_some', e, store_int_of_int32 env v h]
  · have e : Int.ofNat v.toNat = v := by
      rw [Int.ofNat_eq_coe]
      omega
    rw [if_neg hneg, fscanf_d_digits env _ _ hr, e, store_int_of_int32 env v h]

theorem fscanf_d_skip_space (env : Env) (ws l : CStr) (hw : ∀ c ∈ ws, isspace c = true) :
    fscanf_d env (ws ++ l) = fscanf_d env l := by
  unfold fscanf_d
  rw [dropWhile_append_all _ _ _ hw]

/-- A channel file that holds an ASCII integer in the range of `int` reads as
that integer, whatever the library does out of range. -/
theorem read_int_file_ascii (env : Env) (fs : FS) (path : CStr) (v : Int) (hv : int32 v)
    (h : holds_ascii_integer (fs path) v) : read_int_file env fs path = some v := by
  obtain ⟨ws, rest, hf, hw, hr⟩ := h
  unfold read_int_file
  rw [hf, List.append_assoc]
  show fscanf_d env (ws ++ ((toString v).toList ++ rest)) = some v
  rw [fscanf_d_skip_space env _ _ hw, toString_eq_fmt_d]
  exact fscanf_d_fmt_d env v rest hv hr

/-- Under glibc a number past the range of `long` is stored as `-1`, and one
past the range of `int` only as its low 32 bits. -/
theorem fscanf_d_glibc_overflow :
    fscanf_d dead_env "100000000000000000000".toList = some (-1) ∧
      fscanf_d dead_env "4294967338".toList = some 42 := by
  decide

theorem poll_once_eq (win : Bool) (env : Env) (fs : FS) (tmp : CStr) :
    poll_once win env fs tmp = read_int_file env fs tmp := by
  unfold poll_once
  cases win with
  | false => simp
  | true =>
    cases h : fs tmp with
    | none => simp [read_int_file, h]
    | some c => simp

/-- The loop leaves at the first check that reads an integer. -/
theorem poll_loop_found (win : Bool) (env : Env) (tmp : CStr) (v : Int) :
    ∀ (k waited i : Nat) (s : State), waited + step_ms * k < timeout_ms →
      (∀ j, j < k → read_int_file env (fs_after env i s.fs j) tmp = none) →
      read_int_file env (fs_after env i s.fs k) tmp = some v →
      poll_loop win env tmp waited i s =
        (v, { g_sock := s.g_sock, g_py := s.g_py,
              fs := fs_remove (fs_after env i s.fs k) tmp,
              trace := s.trace ++ List.replicate k (Event.sleep step_ms),
              aborted := s.aborted }) := by
  intro k
  induction k with
  | zero =>
    intro waited i s hw _ hv
    have hw2 : waited < timeout_ms := by simpa using hw
    rw [poll_loop, if_pos hw2, poll_once_eq]
    simp only [fs_after] at hv
    simp [hv, fs_after]
  | succ k ih =>
    intro waited i s hw hnone hv
    have hw2 : waited < timeout_ms := by
      have : 0 < step_ms := by decide
      nlinarith
    have h0 : read_int_file env s.fs tmp = none := by
      simpa [fs_after] using hnone 0 (Nat.succ_pos k)
    rw [poll_loop, if_pos hw2, poll_once_eq, h0]
    simp only
    rw [ih]
    · simp [State.emit, fs_after, List.replicate_succ]
    · simp only [Nat.mul_succ] at hw
      omega
    · intro j hj
      have := hnone (j + 1) (Nat.succ_lt_succ hj)
      simpa [fs_after, State.emit] using this
    · simpa [fs_after, State.emit] using hv

/-- The loop runs to the timeout when no check reads an integer. -/
theorem poll_loop_timeout (win : Bool) (env : Env) (tmp : CStr) :
    ∀ (n waited i : Nat) (s : State), waited + step_ms * n = timeout_ms →
      (∀ j, j < n → read_int_file env (fs_after env i s.fs j) tmp = none) →
      poll_loop win env tmp waited i s =
        (0, { g_sock := s.g_sock, g_py := s.g_py,
              fs := fs_remove (fs_after env i s.fs n) tmp,
              trace := s.trace ++ List.replicate n (Event.sleep step_ms),
              aborted := s.aborted }) := by
  intro n
  induction n with
  | zero =>
    intro waited i s hw _
    have hw2 : ¬ waited < timeout_ms := by
      simp only [Nat.mul_zero, Nat.add_zero] at hw
      omega
    rw [poll_loop, if_neg hw2]
    simp [fs_after]
  | succ n ih =>
    intro waited i s hw hnone
    have hw2 : waited < timeout_ms := by
      simp only [Nat.mul_succ, step_ms] at hw
      omega
    have h0 : read_int_file env s.fs tmp = none := by
      simpa [fs_after] using hnone 0 (Nat.succ_pos n)
    rw [poll_loop, if_pos hw2, poll_once_eq, h0]
    simp only
    rw [ih]
    · simp [State.emit, fs_after, List.replicate_succ]
    · simp only [Nat.mul_succ] at hw
      omega
    · intro j hj
      have := hnone (j + 1) (Nat.succ_lt_succ hj)
      simpa [fs_after, State.emit] using this

theorem slept_replicate (n ms : Nat) : slept (List.replicate n (Event.sleep ms)) = ms * n := by
  induction n with
  | zero => simp [slept]
  | succ n ih => simp [List.replicate_succ, slept, ih, Nat.mul_succ, Nat.add_comm]

/-- Effects of `send_cmd`: appended to the trace, with no sleep among them. -/
theorem send_cmd_trace (txt : CStr) (s : State) :
    ∃ es, (send_cmd txt s).trace = s.trace ++ es ∧ slept es = 0 := by
  unfold send_cmd
  split
  · exact ⟨_, rfl, rfl⟩
  · split
    · exact ⟨_, rfl, rfl⟩
    · exact ⟨[], by simp, rfl⟩

theorem temp_channel_trace (win : Bool) (env : Env) (tag : String) (s s0 : State) (tmp : CStr)
    (h : temp_channel win env tag s = some (tmp, s0)) :
    s0.trace = s.trace ∧ s0.g_sock = s.g_sock ∧ s0.g_py = s.g_py := by
  unfold temp_channel at h
  cases win with
  | true =>
    simp only [if_true] at h
    split at h
    · exact absurd h (by simp)
    · split at h
      · exact absurd h (by simp)
      · simp only [Option.some.injEq, Prod.mk.injEq] at h
        rw [← h.2]
        exact ⟨rfl, rfl, rfl⟩
  | false =>
    simp only [Bool.false_eq_true, if_false] at h
    split at h
    · exact absurd h (by simp)
    · simp only [Option.some.injEq, Prod.mk.injEq] at h
      rw [← h.2]
      exact ⟨rfl, rfl, rfl⟩

/-- A query whose channel is allocated is the common tail `query` on some
command text. -/
theorem query_run_eq (win : Bool) (env : Env) (q : Query) (s s0 : State) (tmp : CStr)
    (hq : q.asks) (h : temp_channel win env q.tag s = some (tmp, s0)) :
    ∃ cmd, q.run win env s = query win env cmd tmp s0 := by
  cases q with
  | get_heading =>
    simp only [Query.tag] at h
    exact ⟨"GETHEADING \"".toList ++ tmp ++ "\"".toList,
      by simp only [Query.run, get_heading, h]⟩
  | rand_int maxv =>
    simp only [Query.tag] at h
    have hm : ¬ maxv ≤ 0 := by
      simp only [Query.asks] at hq
      omega
    exact ⟨"RANDINT ".toList ++ fmt_d maxv ++ " \"".toList ++ tmp ++ "\"".toList,
      by simp only [Query.run, rand_int, h, if_neg hm]⟩
  | pow_int a b =>
    simp only [Query.tag] at h
    exact ⟨"POWINT ".toList ++ fmt_d a ++ " ".toList ++ fmt_d b ++ " \"".toList ++ tmp
      ++ "\"".toList, by simp only [Query.run, pow_int, h]⟩

theorem query_found (win : Bool) (env : Env) (cmd tmp : CStr) (s0 : State) (k : Nat) (v : Int)
    (hk : k < 100)
    (hv : read_int_file env (fs_at env s0.fs k) tmp = some v)
    (hearlier : ∀ j, j < k → read_int_file env (fs_at env s0.fs j) tmp = none) :
    (query win env cmd tmp s0).1 = v ∧ (query win env cmd tmp s0).2.fs tmp = none ∧
      slept (since s0 (query win env cmd tmp s0).2) = step_ms * k := by
  obtain ⟨es, hes, hsl⟩ := send_cmd_trace (snprintf 512 cmd) s0
  have hfs := (send_cmd_globals (snprintf 512 cmd) s0).2.2
  unfold query
  simp only
  rw [poll_loop_found win env tmp v k 0 0 _ (by simp only [step_ms, timeout_ms]; omega)
    (by simpa [fs_at, hfs] using hearlier) (by simpa [fs_at, hfs] using hv)]
  refine ⟨rfl, by simp [fs_remove], ?_⟩
  simp only [since, hes, List.append_assoc, List.drop_left, slept_append, hsl,
    slept_replicate, Nat.zero_add]

theorem query_timeout (win : Bool) (env : Env) (cmd tmp : CStr) (s0 : State)
    (hnone : ∀ j, j < 100 → read_int_file env (fs_at env s0.fs j) tmp = none) :
    (query win env cmd tmp s0).1 = 0 ∧ (query win env cmd tmp s0).2.fs tmp = none ∧
      slept (since s0 (query win env cmd tmp s0).2) = 1000 := by
  obtain ⟨es, hes, hsl⟩ := send_cmd_trace (snprintf 512 cmd) s0
  have hfs := (send_cmd_globals (snprintf 512 cmd) s0).2.2
  unfold query
  simp only
  rw [poll_loop_timeout win env tmp 100 0 0 _ (by simp only [step_ms, timeout_ms])
    (by simpa [fs_at, hfs] using hnone)]
  refine ⟨rfl, by simp [fs_remove], ?_⟩
  simp only [since, hes, List.append_assoc, List.drop_left, slept_append, hsl,
    slept_replicate, Nat.zero_add, step_ms]

theorem since_of_trace_eq (s s0 t : State) (h : s0.trace = s.trace) :
    since s t = since s0 t := by
  simp [since, h]

/-- A query whose channel was allocated returns what the first successful
read of the channel stored. -/
theorem query_returns_parsed (win : Bool) (env : Env) (q : Query) (s s0 : State)
    (tmp : CStr) (k : Nat) (v : Int) (hq : q.asks)
    (halloc : temp_channel win env q.tag s = some (tmp, s0)) (hk : k < 100)
    (hv : read_int_file env (fs_at env s0.fs k) tmp = some v)
    (hearlier : ∀ j, j < k → read_int_file env (fs_at env s0.fs j) tmp = none) :
    (q.run win env s).1 = v ∧ (q.run win env s).2.fs tmp = none ∧
      slept (since s (q.run win env s).2) = step_ms * k := by
  obtain ⟨cmd, hcmd⟩ := query_run_eq win env q s s0 tmp hq halloc
  rw [hcmd, since_of_trace_eq s s0 _ (temp_channel_trace win env q.tag s s0 tmp halloc).1]
  exact query_found win env cmd tmp s0 k v hk hv hearlier

/-- C2, as stated, fails for an ASCII integer that a C `int` cannot hold: the
backend answers `pow_int (10, 20)` with `100000000000000000000` before the
first check; under glibc the query returns `-1`. -/
theorem query_integer_out_of_range :
    (Query.pow_int 10 20).asks ∧
      temp_channel false (stub_env 0 "100000000000000000000") "pow" boot =
        some (sample_tmp, boot_tmp) ∧
      holds_ascii_integer
        (fs_at (stub_env 0 "100000000000000000000") boot_tmp.fs 0 sample_tmp)
        100000000000000000000 ∧
      ((Query.pow_int 10 20).run false (stub_env 0 "100000000000000000000") boot).1 = -1 :=
  ⟨trivial, rfl, ⟨[], [], rfl, by simp, by simp⟩,
    (query_returns_parsed false (stub_env 0 "100000000000000000000") (Query.pow_int 10 20)
      boot boot_tmp sample_tmp 0 (-1) trivial rfl (by decide) (by decide)
      (fun j hj => absurd hj (Nat.not_lt_zero j))).1⟩

/-- C2, amended: take a query whose channel was allocated.  If at check `k`
of the 100 (after `k` sleeps of 10 ms) the channel file contains an ASCII
integer `v` in the range of `int`, and no earlier check read an integer, then
the query returns `v` and the channel file is gone afterwards. -/
theorem query_returns_first_integer (win : Bool) (env : Env) (q : Query) (s s0 : State)
    (tmp : CStr) (k : Nat) (v : Int) (hq : q.asks)
    (halloc : temp_channel win env q.tag s = some (tmp, s0)) (hk : k < 100)
    (hv32 : int32 v) (hv : holds_ascii_integer (fs_at env s0.fs k tmp) v)
    (hearlier : ∀ j, j < k → read_int_file env (fs_at env s0.fs j) tmp = none) :
    (q.run win env s).1 = v ∧ (q.run win env s).2.fs tmp = none ∧
      slept (since s (q.run win env s).2) = step_ms * k :=
  query_returns_parsed win env q s s0 tmp k v hq halloc hk
    (read_int_file_ascii env _ tmp v hv32 hv) hearlier

/-- Witness for C2 amended: the backend stub writes `42` into the channel during the
third sleep; `get_heading` returns 42 and the channel file is gone. -/
theorem query_returns_first_integer_witness :
    Query.get_heading.asks ∧
      temp_channel false (stub_env 3 "42") "tgh" boot = some (sample_tmp, boot_tmp) ∧
      3 < 100 ∧ int32 42 ∧
      fs_at (stub_env 3 "42") boot_tmp.fs 3 sample_tmp = some "42".toList ∧
      holds_ascii_integer (fs_at (stub_env 3 "42") boot_tmp.fs 3 sample_tmp) 42 ∧
      (∀ j, j < 3 →
        read_int_file (stub_env 3 "42") (fs_at (stub_env 3 "42") boot_tmp.fs j) sample_tmp =
          none) ∧
      (get_heading false (stub_env 3 "42") boot).1 = 42 ∧
      (get_heading false (stub_env 3 "42") boot).2.fs sample_tmp = none :=
  have h1 : temp_channel false (stub_env 3 "42") "tgh" boot = some (sample_tmp, boot_tmp) := rfl
  have h2 : holds_ascii_integer (fs_at (stub_env 3 "42") boot_tmp.fs 3 sample_tmp) 42 :=
    ⟨[], [], rfl, by simp, by simp⟩
  have h3 : ∀ j, j < 3 →
      read_int_file (stub_env 3 "42") (fs_at (stub_env 3 "42") boot_tmp.fs j) sample_tmp =
        none := by
    decide
  have h := query_returns_first_integer false (stub_env 3 "42") Query.get_heading boot boot_tmp
    sample_tmp 3 42 trivial h1 (by decide) (by decide) h2 h3
  ⟨trivial, h1, by decide, by decide, rfl, h2, h3, h.1, h.2.1⟩

/-- Under the backend stub the sample channel is empty or holds the text of
the stub. -/
theorem stub_fs_after (c : Nat) (text : String) :
    ∀ (j i : Nat) (fs : FS),
      (fs sample_tmp = some [] ∨ fs sample_tmp = some text.toList) →
      (fs_after (stub_env c text) i fs j sample_tmp = some [] ∨
        fs_after (stub_env c text) i fs j sample_tmp = some text.toList) := by
  intro j
  induction j with
  | zero => intro i fs h; exact h
  | succ j ih =>
    intro i fs h
    apply ih
    by_cases hc : i + 1 = c
    · right
      simp [stub_env, hc]
    · simpa [stub_env, hc] using h

/-- C3, as stated, fails when the channel cannot be allocated: `get_heading`
returns 0 at once, having slept 0 ms, less than the timeout. -/
theorem query_timeout_unallocated :
    Query.get_heading.asks ∧ temp_channel false dead_env "tgh" boot = none ∧
      (get_heading false dead_env boot).1 = 0 ∧
      slept (since boot (get_heading false dead_env boot).2) = 0 ∧
      ¬ (timeout_ms ≤ slept (since boot (get_heading false dead_env boot).2)) := by
  refine ⟨trivial, rfl, rfl, rfl, ?_⟩
  have h : slept (since boot (get_heading false dead_env boot).2) = 0 := rfl
  rw [h]
  decide

/-- C3, amended: a query whose channel was allocated and none of whose 100
checks reads an integer (file missing or malformed) returns 0, the channel
file is gone afterwards, and the time slept in the loop is at least the
timeout and less than the timeout plus one poll interval. -/
theorem query_timeout_returns_zero (win : Bool) (env : Env) (q : Query) (s s0 : State)
    (tmp : CStr) (hq : q.asks)
    (halloc : temp_channel win env q.tag s = some (tmp, s0))
    (hnone : ∀ j, j < 100 → read_int_file env (fs_at env s0.fs j) tmp = none) :
    (q.run win env s).1 = 0 ∧ (q.run win env s).2.fs tmp = none ∧
      timeout_ms ≤ slept (since s (q.run win env s).2) ∧
      slept (since s (q.run win env s).2) < timeout_ms + step_ms := by
  obtain ⟨cmd, hcmd⟩ := query_run_eq win env q s s0 tmp hq halloc
  rw [hcmd, since_of_trace_eq s s0 _ (temp_channel_trace win env q.tag s s0 tmp halloc).1]
  obtain ⟨h1, h2, h3⟩ := query_timeout win env cmd tmp s0 hnone
  refine ⟨h1, h2, ?_, ?_⟩ <;> rw [h3] <;> decide

/-- Witness for C3 amended: the backend writes the malformed text `oops`
during the fifth sleep; `pow_int` on Windows returns 0 after 1000 ms. -/
theorem query_timeout_returns_zero_witness :
    (Query.pow_int 2 10).asks ∧
      temp_channel true (stub_env 5 "oops") "pow" boot = some (sample_tmp, boot_tmp) ∧
      (∀ j, j < 100 →
        read_int_file (stub_env 5 "oops") (fs_at (stub_env 5 "oops") boot_tmp.fs j) sample_tmp = none) ∧
      ((Query.pow_int 2 10).run true (stub_env 5 "oops") boot).1 = 0 ∧
      ((Query.pow_int 2 10).run true (stub_env 5 "oops") boot).2.fs sample_tmp = none ∧
      timeout_ms ≤ slept (since boot ((Query.pow_int 2 10).run true (stub_env 5 "oops") boot).2) :=
  have h1 : temp_channel true (stub_env 5 "oops") "pow" boot = some (sample_tmp, boot_tmp) := rfl
  have h3 : ∀ j, j < 100 →
      read_int_file (stub_env 5 "oops") (fs_at (stub_env 5 "oops") boot_tmp.fs j) sample_tmp = none := by
    intro j _
    have h0 : (stub_env 5 "oops").backend 0 boot_tmp.fs sample_tmp = some [] := rfl
    rcases stub_fs_after 5 "oops" j 0 _ (Or.inl h0) with h | h
    · simp only [read_int_file, fs_at, h]
      rfl
    · simp only [read_int_file, fs_at, h]
      rfl
  have h := query_timeout_returns_zero true (stub_env 5 "oops") (Query.pow_int 2 10) boot
    boot_tmp sample_tmp trivial h1 h3
  ⟨trivial, h1, h3, h.1, h.2.1, h.2.2.1⟩

/-! ## Globals under each call -/

theorem rt_init_fallback_g_sock (win : Bool) (env : Env) (s : State) :
    (rt_init_fallback win env s).g_sock = s.g_sock := by
  simp only [rt_init_fallback]
  split_ifs <;> rfl

theorem rt_init_override_g_sock (win : Bool) (env : Env) (s : State) :
    (rt_init_override win env s).g_sock = s.g_sock := by
  simp only [rt_init_override]
  split_ifs <;> first | rfl | (rw [rt_init_fallback_g_sock] <;> rfl)

theorem rt_init_exe_script_g_sock (win : Bool) (env : Env) (s : State) :
    (rt_init_exe_script win env s).g_sock = s.g_sock := by
  simp only [rt_init_exe_script]
  split_ifs <;> first | rfl | (rw [rt_init_override_g_sock] <;> rfl)

theorem rt_init_of_active (win : Bool) (env : Env) (s : State) (h : s.active = true) :
    rt_init win env s = s := by
  unfold rt_init
  rw [if_pos h]

theorem rt_init_one_transport (win : Bool) (env : Env) (s : State) (h : one_transport s) :
    one_transport (rt_init win env s) := by
  by_cases ha : s.active = true
  · rw [rt_init_of_active win env s ha]; exact h
  · have hs : s.g_sock = none := by
      cases hq : s.g_sock with
      | none => rfl
      | some x => simp [State.active, hq] at ha
    have hp : s.g_py = none := by
      cases hq : s.g_py with
      | none => rfl
      | some x => simp [State.active, hq] at ha
    unfold rt_init
    rw [if_neg ha]
    simp only
    split
    · split
      · simp [one_transport, State.emit, hp]
      · simp [one_transport, rt_init_exe_script_g_sock, State.emit, hs]
    · simp [one_transport, rt_init_exe_script_g_sock, hs]

theorem rt_shutdown_one_transport (win : Bool) (s : State) (h : one_transport s) :
    one_transport (rt_shutdown win s) := by
  unfold rt_shutdown
  split
  · split <;> simp [one_transport, State.emit]
  · split
    · simp [one_transport, State.emit]
    · exact h

theorem poll_loop_globals (win : Bool) (env : Env) (tmp : CStr) :
    ∀ (n waited i : Nat) (s : State), timeout_ms - waited ≤ n →
      (poll_loop win env tmp waited i s).2.g_sock = s.g_sock ∧
        (poll_loop win env tmp waited i s).2.g_py = s.g_py := by
  intro n
  induction n with
  | zero =>
    intro waited i s hn
    have hw : ¬ waited < timeout_ms := by omega
    rw [poll_loop, if_neg hw]
    exact ⟨rfl, rfl⟩
  | succ n ih =>
    intro waited i s hn
    rw [poll_loop]
    split
    · split
      · exact ⟨rfl, rfl⟩
      · have := ih (waited + step_ms) (i + 1)
          { s.emit [.sleep step_ms] with fs := env.backend (i + 1) s.fs }
          (by simp only [step_ms]; omega)
        exact this
    · exact ⟨rfl, rfl⟩

theorem query_globals (win : Bool) (env : Env) (cmd tmp : CStr) (s : State) :
    (query win env cmd tmp s).2.g_sock = s.g_sock ∧
      (query win env cmd tmp s).2.g_py = s.g_py := by
  unfold query
  have h := poll_loop_globals win env tmp timeout_ms 0 0
    { send_cmd (snprintf 512 cmd) s with
      fs := env.backend 0 (send_cmd (snprintf 512 cmd) s).fs } (by omega)
  have g := send_cmd_globals (snprintf 512 cmd) s
  exact ⟨h.1.trans g.1, h.2.trans g.2.1⟩

theorem query_run_globals (win : Bool) (env : Env) (q : Query) (s : State) :
    (q.run win env s).2.g_sock = s.g_sock ∧ (q.run win env s).2.g_py = s.g_py := by
  have key : ∀ (tag : String) (cmd : CStr → CStr),
      (match temp_channel win env tag s with
        | none => ((0 : Int), s)
        | some (tmp, s0) => query win env (cmd tmp) tmp s0).2.g_sock = s.g_sock ∧
      (match temp_channel win env tag s with
        | none => ((0 : Int), s)
        | some (tmp, s0) => query win env (cmd tmp) tmp s0).2.g_py = s.g_py := by
    intro tag cmd
    cases h : temp_channel win env tag s with
    | none => exact ⟨rfl, rfl⟩
    | some r =>
      obtain ⟨tmp, s0⟩ := r
      have t := temp_channel_trace win env tag s s0 tmp h
      have g := query_globals win env (cmd tmp) tmp s0
      exact ⟨g.1.trans t.2.1, g.2.trans t.2.2⟩
  cases q with
  | get_heading =>
    exact key "tgh" (fun tmp => "GETHEADING \"".toList ++ tmp ++ "\"".toList)
  | rand_int maxv =>
    simp only [Query.run, rand_int]
    split
    · exact ⟨rfl, rfl⟩
    · exact key "rnd"
        (fun tmp => "RANDINT ".toList ++ fmt_d maxv ++ " \"".toList ++ tmp ++ "\"".toList)
  | pow_int a b =>
    exact key "pow" (fun tmp =>
      "POWINT ".toList ++ fmt_d a ++ " ".toList ++ fmt_d b ++ " \"".toList ++ tmp
        ++ "\"".toList)

theorem draw_globals (p : Draw) (s : State) :
    (p.run s).g_sock = s.g_sock ∧ (p.run s).g_py = s.g_py := by
  cases p <;> exact ⟨(send_cmd_globals _ s).1, (send_cmd_globals _ s).2.1⟩

/-- Every call other than `rt_shutdown` leaves the globals while a transport
is active. -/
theorem exec_globals (win : Bool) (op : Op) (s : State)
    (h : op.is_shutdown = false) (ha : s.active = true) :
    (op.exec win s).g_sock = s.g_sock ∧ (op.exec win s).g_py = s.g_py := by
  cases op with
  | rt_init env => simp only [Op.exec, rt_init_of_active win env s ha, and_self]
  | rt_shutdown => simp [Op.is_shutdown] at h
  | draw p => exact draw_globals p s
  | pen_up => exact ⟨(send_cmd_globals _ s).1, (send_cmd_globals _ s).2.1⟩
  | pen_down => exact ⟨(send_cmd_globals _ s).1, (send_cmd_globals _ s).2.1⟩
  | hide_turtle => exact ⟨(send_cmd_globals _ s).1, (send_cmd_globals _ s).2.1⟩
  | center_turtle => exact ⟨(send_cmd_globals _ s).1, (send_cmd_globals _ s).2.1⟩
  | query env q => exact query_run_globals win env q s

theorem step_globals (win : Bool) (op : Op) (s : State)
    (h : op.is_shutdown = false) (ha : s.active = true) :
    (op.step win s).g_sock = s.g_sock ∧ (op.step win s).g_py = s.g_py := by
  unfold Op.step
  split
  · exact ⟨rfl, rfl⟩
  · exact exec_globals win op s h ha

theorem one_transport_of_globals (s t : State) (h1 : t.g_sock = s.g_sock)
    (h2 : t.g_py = s.g_py) (h : one_transport s) : one_transport t := by
  unfold one_transport at *
  rw [h1, h2]
  exact h

theorem exec_one_transport (win : Bool) (op : Op) (s : State) (h : one_transport s) :
    one_transport (op.exec win s) := by
  cases op with
  | rt_init env => exact rt_init_one_transport win env s h
  | rt_shutdown => exact rt_shutdown_one_transport win s h
  | draw p => exact one_transport_of_globals s _ (draw_globals p s).1 (draw_globals p s).2 h
  | pen_up =>
    exact one_transport_of_globals s _ (send_cmd_globals _ s).1 (send_cmd_globals _ s).2.1 h
  | pen_down =>
    exact one_transport_of_globals s _ (send_cmd_globals _ s).1 (send_cmd_globals _ s).2.1 h
  | hide_turtle =>
    exact one_transport_of_globals s _ (send_cmd_globals _ s).1 (send_cmd_globals _ s).2.1 h
  | center_turtle =>
    exact one_transport_of_globals s _ (send_cmd_globals _ s).1 (send_cmd_globals _ s).2.1 h
  | query env q =>
    exact one_transport_of_globals s _ (query_run_globals win env q s).1
      (query_run_globals win env q s).2 h

theorem step_one_transport (win : Bool) (op : Op) (s : State) (h : one_transport s) :
    one_transport (op.step win s) := by
  unfold Op.step
  split
  · exact h
  · exact exec_one_transport win op s h

theorem run_one_transport (win : Bool) :
    ∀ (ops : List Op) (s : State), one_transport s → one_transport (run win ops s) := by
  intro ops
  induction ops with
  | nil => intro s h; exact h
  | cons op ops ih => intro s h; exact ih _ (step_one_transport win op s h)

theorem reachable_one_transport (win : Bool) (s : State) (h : Reachable win s) :
    one_transport s := by
  obtain ⟨fs, ops, rfl⟩ := h
  apply run_one_transport
  simp [one_transport, State.initial]

/-! ## C7, C8: `rt_shutdown` -/

theorem inactive_globals (s : State) (h : s.active = false) :
    s.g_sock = none ∧ s.g_py = none := by
  cases hs : s.g_sock <;> cases hp : s.g_py <;> simp [State.active, hs, hp] at h ⊢

theorem rt_shutdown_inactive (win : Bool) (s : State) (h : s.active = false) :
    rt_shutdown win s = s := by
  obtain ⟨hs, hp⟩ := inactive_globals s h
  simp only [rt_shutdown, hs, hp]

theorem rt_shutdown_socket (win : Bool) (s : State) (h : Nat) (hs : s.g_sock = some h) :
    rt_shutdown win s =
      { g_sock := none, g_py := s.g_py, fs := s.fs,
        trace := s.trace ++
          ([.send h "QUIT".toList, .send h [LF], .sleep 50, .closesocket h] ++
            (if win then [.wsa_cleanup] else [])),
        aborted := s.aborted } := by
  simp only [rt_shutdown, hs, send_cmd, State.emit]
  cases win <;> simp

theorem rt_shutdown_pipe (win : Bool) (s : State) (fp : Nat) (hs : s.g_sock = none)
    (hp : s.g_py = some fp) :
    rt_shutdown win s =
      { g_sock := none, g_py := none, fs := s.fs,
        trace := s.trace ++
          [.fputs fp "QUIT".toList, .fputc fp LF, .fflush fp,
            if win then .fclose fp else .pclose fp],
        aborted := s.aborted } := by
  simp only [rt_shutdown, hs, hp, send_cmd, State.emit]
  simp

theorem rt_shutdown_result_inactive (win : Bool) (s : State) (h : one_transport s) :
    (rt_shutdown win s).active = false := by
  cases hs : s.g_sock with
  | some x =>
    have hp : s.g_py = none := by
      cases hq : s.g_py with
      | none => rfl
      | some y => exact absurd ⟨by simp [hs], by simp [hq]⟩ h
    rw [rt_shutdown_socket win s x hs]
    simp [State.active, hp]
  | none =>
    cases hp : s.g_py with
    | none =>
      have : s.active = false := by simp [State.active, hs, hp]
      rw [rt_shutdown_inactive win s this]
      exact this
    | some fp =>
      rw [rt_shutdown_pipe win s fp hs hp]
      simp [State.active]

/-- C7, as stated, fails on a pipe: after `rt_init` started the default
interpreter, `rt_shutdown` writes `QUIT` and closes the pipe at once; there
is no sleep between the two. -/
theorem rt_shutdown_pipe_no_grace :
    (run false [Op.rt_init pipe_env] boot).active = true ∧
      since (run false [Op.rt_init pipe_env] boot)
          (rt_shutdown false (run false [Op.rt_init pipe_env] boot)) =
        [.fputs 7 "QUIT".toList, .fputc 7 LF, .fflush 7, .pclose 7] ∧
      slept (since (run false [Op.rt_init pipe_env] boot)
          (rt_shutdown false (run false [Op.rt_init pipe_env] boot))) = 0 := by
  decide

/-- C7, amended: in every reachable state with an active transport,
`rt_shutdown` sends the one line `QUIT` and leaves the runtime uninitialized.
On a socket it then sleeps 50 ms before closing the socket (and, on Windows,
releases the networking subsystem); on a pipe it closes the stream right
after the flush, with no sleep. -/
theorem rt_shutdown_active (win : Bool) (s : State) (hr : Reachable win s)
    (ha : s.active = true) :
    (∀ h, s.g_sock = some h →
        since s (rt_shutdown win s) =
          [.send h "QUIT".toList, .send h [LF], .sleep 50, .closesocket h] ++
            (if win then [.wsa_cleanup] else [])) ∧
      (∀ fp, s.g_py = some fp →
        since s (rt_shutdown win s) =
          [.fputs fp "QUIT".toList, .fputc fp LF, .fflush fp,
            if win then .fclose fp else .pclose fp]) ∧
      wire (since s (rt_shutdown win s)) = "QUIT\n".toList ∧
      (rt_shutdown win s).g_sock = none ∧ (rt_shutdown win s).g_py = none := by
  have inv := reachable_one_transport win s hr
  have hsock : ∀ h, s.g_sock = some h →
      since s (rt_shutdown win s) =
        [.send h "QUIT".toList, .send h [LF], .sleep 50, .closesocket h] ++
          (if win then [.wsa_cleanup] else []) := by
    intro h hs
    rw [rt_shutdown_socket win s h hs]
    simp [since]
  have hpipe : ∀ fp, s.g_py = some fp →
      since s (rt_shutdown win s) =
        [.fputs fp "QUIT".toList, .fputc fp LF, .fflush fp,
          if win then .fclose fp else .pclose fp] := by
    intro fp hp
    have hs : s.g_sock = none := by
      cases hq : s.g_sock with
      | none => rfl
      | some y => exact absurd ⟨by simp [hq], by simp [hp]⟩ inv
    rw [rt_shutdown_pipe win s fp hs hp]
    simp [since]
  refine ⟨hsock, hpipe, ?_, inactive_globals _ (rt_shutdown_result_inactive win s inv)⟩
  cases hs : s.g_sock with
  | some h =>
    rw [hsock h hs]
    cases win <;> rfl
  | none =>
    cases hp : s.g_py with
    | none => simp [State.active, hs, hp] at ha
    | some fp =>
      rw [hpipe fp hp]
      cases win <;> rfl

/-- Witness for C7 amended: the state after `rt_init` connected a socket. -/
theorem rt_shutdown_active_witness :
    Reachable false (run false [Op.rt_init (sock_env true)] boot) ∧
      (run false [Op.rt_init (sock_env true)] boot).active = true ∧
      wire (since (run false [Op.rt_init (sock_env true)] boot)
        (rt_shutdown false (run false [Op.rt_init (sock_env true)] boot))) = "QUIT\n".toList ∧
      (rt_shutdown false (run false [Op.rt_init (sock_env true)] boot)).g_sock = none ∧
      (rt_shutdown false (run false [Op.rt_init (sock_env true)] boot)).g_py = none :=
  have hr : Reachable false (run false [Op.rt_init (sock_env true)] boot) := ⟨_, _, rfl⟩
  have ha : (run false [Op.rt_init (sock_env true)] boot).active = true := by decide
  ⟨hr, ha, (rt_shutdown_active false _ hr ha).2.2⟩

/-- C8: `rt_shutdown` in the uninitialized state returns the state as it is
(nothing sent, no sleep, nothing closed); and in every reachable state a
second `rt_shutdown` right after a first changes nothing more. -/
theorem rt_shutdown_idempotent (win : Bool) (s : State) :
    (s.active = false → rt_shutdown win s = s) ∧
      (Reachable win s → rt_shutdown win (rt_shutdown win s) = rt_shutdown win s) :=
  ⟨rt_shutdown_inactive win s, fun hr =>
    rt_shutdown_inactive win _
      (rt_shutdown_result_inactive win s (reachable_one_transport win s hr))⟩

/-- Witness for C8: shutdown before any `rt_init`, and twice after a socket
was connected. -/
theorem rt_shutdown_idempotent_witness :
    boot.active = false ∧ rt_shutdown true boot = boot ∧
      Reachable false (run false [Op.rt_init (sock_env true)] boot) ∧
      rt_shutdown false (rt_shutdown false (run false [Op.rt_init (sock_env true)] boot)) =
        rt_shutdown false (run false [Op.rt_init (sock_env true)] boot) :=
  ⟨rfl, (rt_shutdown_idempotent true boot).1 rfl, ⟨_, _, rfl⟩,
    (rt_shutdown_idempotent false (run false [Op.rt_init (sock_env true)] boot)).2 ⟨_, _, rfl⟩⟩

/-! ## C9: one transport at a time -/

/-- C9: in every state reachable from program start by calls of `rt_init`,
`rt_shutdown`, the drawing primitives and the queries, under any behaviour
of the outside world, `g_sock` and `g_py` are not both active; and while a
transport is active every call other than `rt_shutdown` leaves both
globals as they are. -/
theorem one_transport_at_a_time (win : Bool) (s : State) (hr : Reachable win s) :
    ¬ (s.g_sock.isSome = true ∧ s.g_py.isSome = true) ∧
      ∀ op : Op, op.is_shutdown = false → s.active = true →
        (op.step win s).g_sock = s.g_sock ∧ (op.step win s).g_py = s.g_py :=
  ⟨reachable_one_transport win s hr, fun op h ha => step_globals win op s h ha⟩

/-- Witness for C9: a session over a socket with a query in it; and, after
the socket was connected, a drawing call and a further `rt_init` in an
environment where a process could be started. -/
theorem one_transport_at_a_time_witness :
    Reachable false
        (run false [Op.rt_init (sock_env true), Op.draw (Draw.move_forward 10),
          Op.query (stub_env 3 "42") Query.get_heading] boot) ∧
      ¬ ((run false [Op.rt_init (sock_env true), Op.draw (Draw.move_forward 10),
          Op.query (stub_env 3 "42") Query.get_heading] boot).g_sock.isSome = true ∧
        (run false [Op.rt_init (sock_env true), Op.draw (Draw.move_forward 10),
          Op.query (stub_env 3 "42") Query.get_heading] boot).g_py.isSome = true) ∧
      (run false [Op.rt_init (sock_env true)] boot).active = true ∧
      ((Op.rt_init pipe_env).step false (run false [Op.rt_init (sock_env true)] boot)).g_sock =
        (run false [Op.rt_init (sock_env true)] boot).g_sock ∧
      ((Op.rt_init pipe_env).step false (run false [Op.rt_init (sock_env true)] boot)).g_py =
        (run false [Op.rt_init (sock_env true)] boot).g_py :=
  have ha : (run false [Op.rt_init (sock_env true)] boot).active = true := by decide
  ⟨⟨_, _, rfl⟩, (one_transport_at_a_time false _ ⟨_, _, rfl⟩).1, ha,
    (one_transport_at_a_time false (run false [Op.rt_init (sock_env true)] boot)
      ⟨_, _, rfl⟩).2 (Op.rt_init pipe_env) rfl ha⟩

/-! ## C6: `rt_init` twice, the case that fails -/

/-- C6, as stated, fails when the first call connects nothing: with nothing
configured and the default interpreter failing to start, the runtime stays
uninitialized and the second `rt_init` tries to start the interpreter
again. -/
theorem rt_init_twice_retries :
    (rt_init false dead_env boot).active = false ∧
      since (rt_init false dead_env boot) (rt_init false dead_env (rt_init false dead_env boot)) =
        [.spawn .fallback dead_env.PY_CMD false, .tried .fallback false] := by
  decide

/-! ## C5, C10: what `rt_init` tries, and in which order -/

theorem attempts_append (a b : List Event) : attempts (a ++ b) = attempts a ++ attempts b := by
  induction a with
  | nil => rfl
  | cons e es ih => cases e <;> simp [attempts, ih]

theorem spawns_append (a b : List Event) : spawns (a ++ b) = spawns a ++ spawns b := by
  induction a with
  | nil => rfl
  | cons e es ih => cases e <;> simp [spawns, ih]

theorem win_create_process_obs (env : Env) (site : Strategy) (cmdline : CStr) :
    attempts (win_create_process env site cmdline).2 = [] ∧
      spawns (win_create_process env site cmdline).2 =
        [(site, cmdline, env.CreateProcessA site cmdline)] := by
  simp only [win_create_process]
  split_ifs
  · exact ⟨rfl, rfl⟩
  · split <;> exact ⟨rfl, rfl⟩

/-- The command line `win_spawn_python` builds. -/
theorem win_spawn_python_obs (env : Env) (site : Strategy) (exe script : Option CStr) :
    attempts (win_spawn_python env site exe script).2 = [] ∧
      spawns (win_spawn_python env site exe script).2 =
        if env.CreatePipe site = true ∧ nonempty script = true then
          [(site,
            snprintf 4096 (if nonempty exe = true then quoted_cmd (str exe) (str script)
              else launcher_cmd PY_LAUNCH_FALLBACK (str script)),
            env.CreateProcessA site
              (snprintf 4096 (if nonempty exe = true then quoted_cmd (str exe) (str script)
                else launcher_cmd PY_LAUNCH_FALLBACK (str script))))]
        else [] := by
  simp only [win_spawn_python]
  by_cases hp : env.CreatePipe site = true <;> by_cases hs : nonempty script = true <;>
    by_cases he : nonempty exe = true <;>
    simp [hp, hs, he, win_create_process_obs, attempts, spawns]

theorem connect_loop_obs (res : List (Option Nat × Bool)) :
    attempts (connect_loop res).2 = [] ∧ spawns (connect_loop res).2 = [] := by
  induction res with
  | nil => exact ⟨rfl, rfl⟩
  | cons p ps ih =>
    obtain ⟨fd, ok⟩ := p
    cases fd with
    | none => simpa [connect_loop] using ih
    | some fd =>
      cases ok with
      | true => exact ⟨rfl, rfl⟩
      | false => simpa [connect_loop, attempts, spawns] using ih

theorem tcp_connect_obs (win : Bool) (env : Env) (tcp_env : CStr) :
    attempts (tcp_connect win env tcp_env).2 = [] ∧
      spawns (tcp_connect win env tcp_env).2 = [] := by
  simp only [tcp_connect]
  split <;> cases win <;>
    simp [attempts_append, spawns_append, connect_loop_obs, attempts, spawns]

theorem win_spawn_python_sites (env : Env) (site : Strategy) (exe script : Option CStr) :
    ∀ x ∈ spawns (win_spawn_python env site exe script).2, x.1 = site := by
  intro x hx
  rw [(win_spawn_python_obs env site exe script).2] at hx
  split at hx
  · simp only [List.mem_singleton] at hx
    rw [hx]
  · simp at hx

theorem isSome_false_eq_none {α : Type} (o : Option α) (h : ¬ o.isSome = true) : o = none := by
  cases o with
  | none => rfl
  | some x => simp at h

/-! ### Properties of attempt chains -/

theorem chain_ok (c e : Strategy → Bool) (st : Strategy) (rest : List Strategy)
    (hc : c st = true) : Chain c e (st :: rest) [(st, true)] := by
  simp [Chain, hc]

theorem chain_fail (c e : Strategy → Bool) (st : Strategy) (rest : List Strategy)
    (a : List (Strategy × Bool)) (hc : c st = true) (he : e st = false)
    (h : Chain c e rest a) : Chain c e (st :: rest) ((st, false) :: a) := by
  simp only [Chain, hc, if_true]
  exact Or.inr (Or.inr ⟨he, a, rfl, h⟩)

theorem chain_end (c e : Strategy → Bool) (st : Strategy) (rest : List Strategy)
    (hc : c st = true) (he : e st = true) : Chain c e (st :: rest) [(st, false)] := by
  simp [Chain, hc, he]

theorem chain_skip (c e : Strategy → Bool) (st : Strategy) (rest : List Strategy)
    (a : List (Strategy × Bool)) (hc : ¬ c st = true) (h : Chain c e rest a) :
    Chain c e (st :: rest) a := by
  simp only [Chain, hc, if_false]
  exact h

/-- The three shapes of a chain at a configured strategy. -/
theorem chain_cases (c e : Strategy → Bool) (st : Strategy) (rest : List Strategy)
    (a : List (Strategy × Bool)) (h : Chain c e (st :: rest) a) (hc : c st = true) :
    a = [(st, true)] ∨ (e st = true ∧ a = [(st, false)]) ∨
      (e st = false ∧ ∃ a', a = (st, false) :: a' ∧ Chain c e rest a') := by
  simpa only [Chain, hc, if_true] using h

theorem chain_mem (c e : Strategy → Bool) :
    ∀ (sts : List Strategy) (a : List (Strategy × Bool)), Chain c e sts a →
      ∀ x ∈ a, x.1 ∈ sts ∧ c x.1 = true := by
  intro sts
  induction sts with
  | nil =>
    intro a h x hx
    simp only [Chain] at h
    rw [h] at hx
    simp at hx
  | cons st rest ih =>
    intro a h x hx
    by_cases hc : c st = true
    · rcases chain_cases c e st rest a h hc with h | ⟨_, h⟩ | ⟨_, a', h, h'⟩
      · rw [h] at hx
        simp only [List.mem_singleton] at hx
        rw [hx]
        exact ⟨List.mem_cons_self _ _, hc⟩
      · rw [h] at hx
        simp only [List.mem_singleton] at hx
        rw [hx]
        exact ⟨List.mem_cons_self _ _, hc⟩
      · rw [h] at hx
        rcases List.mem_cons.mp hx with hx | hx
        · rw [hx]
          exact ⟨List.mem_cons_self _ _, hc⟩
        · exact ⟨List.mem_cons_of_mem _ (ih a' h' x hx).1, (ih a' h' x hx).2⟩
    · simp only [Chain, hc, if_false] at h
      exact ⟨List.mem_cons_of_mem _ (ih a h x hx).1, (ih a h x hx).2⟩

/-- A chain whose head strategy did not succeed, and does not end the run,
continues with the rest. -/
theorem chain_tail (c e : Strategy → Bool) (st : Strategy) (rest : List Strategy)
    (a : List (Strategy × Bool)) (h : Chain c e (st :: rest) a) (he : e st = false)
    (hno : (st, true) ∉ a) :
    ∃ a', Chain c e rest a' ∧ (∀ x, x ∈ a' → x ∈ a) ∧
      (c st = true → (st, false) ∈ a) := by
  by_cases hc : c st = true
  · rcases chain_cases c e st rest a h hc with h | ⟨he', _⟩ | ⟨_, a', h, h'⟩
    · rw [h] at hno
      simp at hno
    · rw [he] at he'
      exact absurd he' (by decide)
    · refine ⟨a', h', ?_, fun _ => ?_⟩
      · intro x hx
        rw [h]
        exact List.mem_cons_of_mem _ hx
      · rw [h]
        exact List.mem_cons_self _ _
  · simp only [Chain, hc, if_false] at h
    exact ⟨a, h, fun x hx => hx, fun h' => absurd h' hc⟩

theorem chain_head (c e : Strategy → Bool) (st : Strategy) (rest : List Strategy)
    (a : List (Strategy × Bool)) (h : Chain c e (st :: rest) a) (hc : c st = true) :
    ∃ ok, (st, ok) ∈ a := by
  rcases chain_cases c e st rest a h hc with h | ⟨_, h⟩ | ⟨_, a', h, _⟩
  · exact ⟨true, by rw [h]; exact List.mem_cons_self _ _⟩
  · exact ⟨false, by rw [h]; exact List.mem_cons_self _ _⟩
  · exact ⟨false, by rw [h]; exact List.mem_cons_self _ _⟩

theorem chain_ne_nil (c e : Strategy → Bool) :
    ∀ (sts : List Strategy) (a : List (Strategy × Bool)), Chain c e sts a →
      ∀ st ∈ sts, c st = true → a ≠ [] := by
  intro sts
  induction sts with
  | nil =>
    intro a _ st hst
    simp at hst
  | cons st0 rest ih =>
    intro a h st hst hc
    by_cases hc0 : c st0 = true
    · rcases chain_cases c e st0 rest a h hc0 with h | ⟨_, h⟩ | ⟨_, a', h, _⟩ <;>
        rw [h] <;> simp
    · simp only [Chain, hc0, if_false] at h
      rcases List.mem_cons.mp hst with e1 | e1
      · rw [e1] at hc
        exact absurd hc hc0
      · exact ih a h st e1 hc

theorem strategies_all (st : Strategy) :
    st ∈ [Strategy.tcp, .exe_script, .override, .fallback] := by
  cases st <;> simp

/-! ### Effects of each stage of `rt_init` -/

/-- Process creations of a strategy carry its call site. -/
theorem strategy_events_sites (win : Bool) (env : Env) (st : Strategy) :
    ∀ x ∈ spawns (strategy_events win env st), x.1 = st := by
  intro x hx
  cases st with
  | tcp =>
    simp only [strategy_events, (tcp_connect_obs _ _ _).2] at hx
    simp at hx
  | exe_script =>
    simp only [strategy_events] at hx
    split at hx
    · exact win_spawn_python_sites _ _ _ _ x hx
    · simp only [spawns, List.mem_singleton] at hx
      rw [hx]
  | override =>
    simp only [strategy_events] at hx
    split at hx
    · exact win_spawn_python_sites _ _ _ _ x hx
    · simp only [spawns, List.mem_singleton] at hx
      rw [hx]
  | fallback =>
    simp only [strategy_events] at hx
    split at hx
    · split at hx
      · exact win_spawn_python_sites _ _ _ _ x hx
      · simp [spawns] at hx
    · simp only [spawns, List.mem_singleton] at hx
      rw [hx]

theorem attempts_strategy_events (win : Bool) (env : Env) (st : Strategy) :
    attempts (strategy_events win env st) = [] := by
  cases st with
  | tcp => exact (tcp_connect_obs _ _ _).1
  | exe_script =>
    simp only [strategy_events]
    split
    · exact (win_spawn_python_obs _ _ _ _).1
    · rfl
  | override =>
    simp only [strategy_events]
    split
    · exact (win_spawn_python_obs _ _ _ _).1
    · rfl
  | fallback =>
    simp only [strategy_events]
    split
    · split
      · exact (win_spawn_python_obs _ _ _ _).1
      · rfl
    · rfl

/-- Every process creation in the trace of a run belongs to one of its
attempts. -/
theorem attempt_events_spawns (win : Bool) (env : Env) :
    ∀ (a : List (Strategy × Bool)), ∀ x ∈ spawns (attempt_events win env a),
      ∃ ok, (x.1, ok) ∈ a := by
  intro a
  induction a with
  | nil =>
    intro x hx
    simp [attempt_events, spawns] at hx
  | cons y ys ih =>
    intro x hx
    simp only [attempt_events, spawns_append, spawns, List.append_nil, List.mem_append] at hx
    rcases hx with hx | hx
    · have := strategy_events_sites win env y.1 x hx
      exact ⟨y.2, by rw [this]; exact List.mem_cons_self _ _⟩
    · obtain ⟨ok, hok⟩ := ih x hx
      exact ⟨ok, List.mem_cons_of_mem _ hok⟩

/-- One attempt: the library calls of the strategy, then its end mark. -/
theorem attempts_block (win : Bool) (env : Env) (st : Strategy) (b : Bool) :
    attempts (strategy_events win env st ++ [.tried st b]) = [(st, b)] := by
  rw [attempts_append, attempts_strategy_events]
  rfl

theorem attempt_events_cons (win : Bool) (env : Env) (st : Strategy) (b : Bool)
    (es : List Event) (h : es = attempt_events win env (attempts es)) :
    strategy_events win env st ++ [.tried st b] ++ es =
      attempt_events win env ([(st, b)] ++ attempts es) := by
  show _ = strategy_events win env st ++ [.tried st b] ++ attempt_events win env (attempts es)
  rw [← h]

/-- Effects of the fallback: one attempt, and process creations at its call
site only. -/
theorem rt_init_fallback_events (win : Bool) (env : Env) (s : State) (hp : s.g_py = none) :
    ∃ es, (rt_init_fallback win env s).trace = s.trace ++ es ∧
      Chain (configured win env) (ends_run win) [.fallback] (attempts es) ∧
      es = attempt_events win env (attempts es) ∧
      (rt_init_fallback win env s).g_py.isSome = (attempts es).any (fun x => x.2) ∧
      ((rt_init_fallback win env s).aborted = false →
        ∀ x ∈ attempts es, ends_run win x.1 = false) := by
  have key : ∀ b : Bool,
      Chain (configured win env) (ends_run win) [.fallback] [(.fallback, b)] := by
    intro b
    cases b
    · exact chain_fail _ _ _ _ _ rfl rfl rfl
    · exact chain_ok _ _ _ _ rfl
  have hall : ∀ b : Bool, ∀ x ∈ [(Strategy.fallback, b)], ends_run win x.1 = false := by
    intro b x hx
    simp only [List.mem_singleton] at hx
    rw [hx]
    rfl
  have hblk := attempts_block win env .fallback
  have hev : ∀ b, strategy_events win env .fallback ++ [.tried .fallback b] =
      attempt_events win env [(.fallback, b)] := by
    intro b
    simp [attempt_events]
  refine ⟨strategy_events win env .fallback ++
    [.tried .fallback (rt_init_fallback win env s).g_py.isSome], ?_, ?_, ?_, ?_, ?_⟩
  · simp only [rt_init_fallback, strategy_events]
    split_ifs <;> simp [State.emit, hp]
  · rw [hblk]
    exact key _
  · rw [hblk]
    exact hev _
  · rw [hblk]
    simp
  · intro _
    rw [hblk]
    exact hall _

/-- Effects of the override stage and what follows it. -/
theorem rt_init_override_events (win : Bool) (env : Env) (s : State) (hp : s.g_py = none) :
    ∃ es, (rt_init_override win env s).trace = s.trace ++ es ∧
      Chain (configured win env) (ends_run win) [.override, .fallback] (attempts es) ∧
      es = attempt_events win env (attempts es) ∧
      (rt_init_override win env s).g_py.isSome = (attempts es).any (fun x => x.2) ∧
      ((rt_init_override win env s).aborted = false →
        ∀ x ∈ attempts es, ends_run win x.1 = false) := by
  have hblk := attempts_block win env .override
  by_cases hc : nonempty (getenv_safe env "TURTLE_PY_CMD") = true
  · have hcfg : configured win env .override = true := hc
    cases win with
    | true =>
      by_cases hok : (win_spawn_python env .override none
          (getenv_safe env "TURTLE_PY_CMD")).1.isSome = true
      · refine ⟨strategy_events true env .override ++ [.tried .override true], ?_, ?_, ?_, ?_, ?_⟩
        · simp [rt_init_override, hc, hok, strategy_events, State.emit]
        · rw [hblk]
          exact chain_ok _ _ _ _ hcfg
        · rw [hblk]
          simp [attempt_events]
        · rw [hblk]
          simp [rt_init_override, hc, hok]
        · intro _ x hx
          rw [hblk] at hx
          simp only [List.mem_singleton] at hx
          rw [hx]
          rfl
      · obtain ⟨es, h1, h2, h3, h4, h5⟩ := rt_init_fallback_events true env
          { s.emit ((win_spawn_python env .override none (getenv_safe env "TURTLE_PY_CMD")).2 ++
              [.tried .override false]) with
            g_py := (win_spawn_python env .override none (getenv_safe env "TURTLE_PY_CMD")).1 }
          (isSome_false_eq_none _ hok)
        have hdef : rt_init_override true env s = rt_init_fallback true env
            { s.emit ((win_spawn_python env .override none
                (getenv_safe env "TURTLE_PY_CMD")).2 ++ [.tried .override false]) with
              g_py := (win_spawn_python env .override none
                (getenv_safe env "TURTLE_PY_CMD")).1 } := by
          simp [rt_init_override, hc, hok]
        refine ⟨(strategy_events true env .override ++ [.tried .override false]) ++ es,
          ?_, ?_, ?_, ?_, ?_⟩
        · rw [hdef, h1]
          simp [strategy_events, State.emit]
        · rw [attempts_append, hblk]
          exact chain_fail _ _ _ _ _ hcfg rfl h2
        · rw [attempts_append, hblk]
          exact attempt_events_cons true env _ _ es h3
        · rw [hdef, h4, attempts_append, hblk]
          simp
        · intro hab x hx
          rw [attempts_append, hblk] at hx
          rcases List.mem_append.mp hx with hx | hx
          · simp only [List.mem_singleton] at hx
            rw [hx]
            rfl
          · rw [hdef] at hab
            exact h5 hab x hx
    | false =>
      refine ⟨strategy_events false env .override ++
        [.tried .override (env.popen .override (str (getenv_safe env "TURTLE_PY_CMD"))).isSome],
        ?_, ?_, ?_, ?_, ?_⟩
      · simp [rt_init_override, hc, strategy_events, State.emit]
      · rw [hblk]
        cases (env.popen .override (str (getenv_safe env "TURTLE_PY_CMD"))).isSome
        · exact chain_end _ _ _ _ hcfg rfl
        · exact chain_ok _ _ _ _ hcfg
      · rw [hblk]
        simp [attempt_events]
      · rw [hblk]
        simp [rt_init_override, hc]
      · intro hab
        simp [rt_init_override, hc] at hab
  · obtain ⟨es, h1, h2, h3, h4, h5⟩ := rt_init_fallback_events win env s hp
    have hdef : rt_init_override win env s = rt_init_fallback win env s := by
      simp [rt_init_override, hc]
    rw [hdef]
    exact ⟨es, h1, chain_skip _ _ _ _ _ (by simpa [configured] using hc) h2, h3, h4, h5⟩

/-- Process creations of the stages after the executable + script stage are
not at its call site. -/
theorem later_spawns_sites (win : Bool) (env : Env) (es : List Event)
    (h2 : Chain (configured win env) (ends_run win) [.override, .fallback] (attempts es))
    (h3 : es = attempt_events win env (attempts es)) :
    ∀ x ∈ spawns es, x.1 ≠ .exe_script := by
  intro x hx
  rw [h3] at hx
  obtain ⟨ok, hok⟩ := attempt_events_spawns win env _ x hx
  have := (chain_mem _ _ _ _ h2 _ hok).1
  intro e1
  rw [e1] at this
  simp at this

theorem exe_script_spawns_append (a b : List Event) :
    exe_script_spawns (a ++ b) = exe_script_spawns a ++ exe_script_spawns b := by
  simp [exe_script_spawns, spawns_append]

theorem exe_script_spawns_none (es : List Event) (h : ∀ x ∈ spawns es, x.1 ≠ .exe_script) :
    exe_script_spawns es = [] := by
  simp only [exe_script_spawns, List.filter_eq_nil_iff]
  intro x hx
  simpa using h x hx

theorem win_exe_script_spawns (env : Env) (b : Bool)
    (hs : nonempty (getenv_safe env "TURTLE_PY_SCRIPT") = true) :
    exe_script_spawns ((win_spawn_python env .exe_script
        (ptr_or_null (getenv_safe env "TURTLE_PY_EXE")) (getenv_safe env "TURTLE_PY_SCRIPT")).2 ++ [.tried .exe_script b]) =
      exe_script_expected true env := by
  have hn : nonempty none = false := rfl
  by_cases hp : env.CreatePipe .exe_script = true <;>
    by_cases he : nonempty (getenv_safe env "TURTLE_PY_EXE") = true <;>
    simp [exe_script_spawns, spawns_append, spawns, (win_spawn_python_obs _ _ _ _).2,
      exe_script_expected, exe_script_cmd_win, ptr_or_null, hs, hp, he, hn]

/-- Effects of the executable + script stage and what follows it. -/
theorem rt_init_exe_script_events (win : Bool) (env : Env) (s : State) (hp : s.g_py = none) :
    ∃ es, (rt_init_exe_script win env s).trace = s.trace ++ es ∧
      Chain (configured win env) (ends_run win) [.exe_script, .override, .fallback]
        (attempts es) ∧
      es = attempt_events win env (attempts es) ∧
      exe_script_spawns es = exe_script_expected win env ∧
      (rt_init_exe_script win env s).g_py.isSome = (attempts es).any (fun x => x.2) ∧
      ((rt_init_exe_script win env s).aborted = false →
        ∀ x ∈ attempts es, ends_run win x.1 = false) := by
  have hblk := attempts_block win env .exe_script
  have hown : ∀ b, exe_script_spawns (strategy_events win env .exe_script ++
      [.tried .exe_script b]) = exe_script_expected win env ∨
      configured win env .exe_script = false := by
    intro b
    cases win with
    | true =>
      by_cases hc : nonempty (getenv_safe env "TURTLE_PY_SCRIPT") = true
      · left
        simpa only [strategy_events, if_true] using win_exe_script_spawns env b hc
      · right
        simpa [configured] using hc
    | false =>
      by_cases hc : exe_and_script env = true
      · left
        simp [strategy_events, exe_script_spawns, spawns, exe_script_expected, hc]
      · right
        simpa [configured, exe_and_script] using hc
  by_cases hcfg : configured win env .exe_script = true
  · have hexp : ∀ b, exe_script_spawns (strategy_events win env .exe_script ++
        [.tried .exe_script b]) = exe_script_expected win env := by
      intro b
      rcases hown b with h | h
      · exact h
      · rw [hcfg] at h
        exact absurd h (by decide)
    have hcond : (win = true ∧ nonempty (getenv_safe env "TURTLE_PY_SCRIPT") = true) ∨
        (win = false ∧ (nonempty (getenv_safe env "TURTLE_PY_EXE") &&
          nonempty (getenv_safe env "TURTLE_PY_SCRIPT")) = true) := by
      cases win
      · right
        exact ⟨rfl, by simpa [configured] using hcfg⟩
      · left
        exact ⟨rfl, by simpa [configured] using hcfg⟩
    -- the result stored in `g_py` by the attempt
    have hres : ∃ r : Option Nat,
        (r.isSome = true →
          rt_init_exe_script win env s =
            { s.emit (strategy_events win env .exe_script ++ [.tried .exe_script true]) with
              g_py := r }) ∧
        (¬ r.isSome = true →
          rt_init_exe_script win env s = rt_init_override win env
            { s.emit (strategy_events win env .exe_script ++ [.tried .exe_script false]) with
              g_py := r }) := by
      rcases hcond with ⟨hw, hc⟩ | ⟨hw, hc⟩
      · refine ⟨(win_spawn_python env .exe_script
          (ptr_or_null (getenv_safe env "TURTLE_PY_EXE"))
          (getenv_safe env "TURTLE_PY_SCRIPT")).1, fun h => ?_, fun h => ?_⟩ <;>
          simp [rt_init_exe_script, hw, hc, h, strategy_events]
      · refine ⟨env.popen .exe_script (exe_script_cmd env), fun h => ?_, fun h => ?_⟩
        · have h' : (env.popen .exe_script (snprintf 4096
              (quoted_cmd (str (getenv_safe env "TURTLE_PY_EXE"))
                (str (getenv_safe env "TURTLE_PY_SCRIPT"))))).isSome = true := h
          simp [rt_init_exe_script, hw, hc, h', strategy_events, exe_script_cmd, State.emit]
        · have h' : ¬ (env.popen .exe_script (snprintf 4096
              (quoted_cmd (str (getenv_safe env "TURTLE_PY_EXE"))
                (str (getenv_safe env "TURTLE_PY_SCRIPT"))))).isSome = true := h
          simp [rt_init_exe_script, hw, hc, h', strategy_events, exe_script_cmd, State.emit]
    obtain ⟨r, hyes, hno⟩ := hres
    by_cases hok : r.isSome = true
    · refine ⟨strategy_events win env .exe_script ++ [.tried .exe_script true],
        ?_, ?_, ?_, hexp true, ?_, ?_⟩
      · rw [hyes hok]
        rfl
      · rw [hblk]
        exact chain_ok _ _ _ _ hcfg
      · rw [hblk]
        simp [attempt_events]
      · rw [hblk, hyes hok]
        simpa using hok
      · intro _ x hx
        rw [hblk] at hx
        simp only [List.mem_singleton] at hx
        rw [hx]
        rfl
    · obtain ⟨es, h1, h2, h3, h4, h5⟩ := rt_init_override_events win env
        { s.emit (strategy_events win env .exe_script ++ [.tried .exe_script false]) with
          g_py := r } (isSome_false_eq_none _ hok)
      refine ⟨(strategy_events win env .exe_script ++ [.tried .exe_script false]) ++ es,
        ?_, ?_, ?_, ?_, ?_, ?_⟩
      · rw [hno hok, h1]
        simp [State.emit]
      · rw [attempts_append, hblk]
        exact chain_fail _ _ _ _ _ hcfg rfl h2
      · rw [attempts_append, hblk]
        exact attempt_events_cons win env _ _ es h3
      · rw [exe_script_spawns_append, hexp false,
          exe_script_spawns_none es (later_spawns_sites win env es h2 h3), List.append_nil]
      · rw [hno hok, h4, attempts_append, hblk]
        simp
      · intro hab x hx
        rw [attempts_append, hblk] at hx
        rcases List.mem_append.mp hx with hx | hx
        · simp only [List.mem_singleton] at hx
          rw [hx]
          rfl
        · rw [hno hok] at hab
          exact h5 hab x hx
  · obtain ⟨es, h1, h2, h3, h4, h5⟩ := rt_init_override_events win env s hp
    have hdef : rt_init_exe_script win env s = rt_init_override win env s := by
      cases win
      · have : ¬ (nonempty (getenv_safe env "TURTLE_PY_EXE") &&
            nonempty (getenv_safe env "TURTLE_PY_SCRIPT")) = true := by
          simpa [configured] using hcfg
        simp [rt_init_exe_script, this]
      · have : ¬ nonempty (getenv_safe env "TURTLE_PY_SCRIPT") = true := by
          simpa [configured] using hcfg
        simp [rt_init_exe_script, this]
    have hexp : exe_script_expected win env = [] := by
      cases win
      · have : ¬ exe_and_script env = true := by simpa [configured, exe_and_script] using hcfg
        simp [exe_script_expected, this]
      · have : ¬ nonempty (getenv_safe env "TURTLE_PY_SCRIPT") = true := by
          simpa [configured] using hcfg
        simp [exe_script_expected, this]
    rw [hdef]
    refine ⟨es, h1, chain_skip _ _ _ _ _ hcfg h2, h3, ?_, h4, h5⟩
    rw [exe_script_spawns_none es (later_spawns_sites win env es h2 h3), hexp]

/-- Effects of `rt_init` in a state with no transport. -/
theorem rt_init_events (win : Bool) (env : Env) (s : State) (h : s.active = false) :
    ∃ es, (rt_init win env s).trace = s.trace ++ es ∧
      Chain (configured win env) (ends_run win) [.tcp, .exe_script, .override, .fallback]
        (attempts es) ∧
      es = attempt_events win env (attempts es) ∧
      ((rt_init win env s).g_sock.isSome = true →
        attempts es = [(.tcp, true)] ∧ spawns es = []) ∧
      ((rt_init win env s).g_sock = none →
        exe_script_spawns es = exe_script_expected win env ∧ (.tcp, true) ∉ attempts es) ∧
      (rt_init win env s).active = (attempts es).any (fun x => x.2) ∧
      ((rt_init win env s).aborted = false →
        ∀ x ∈ attempts es, ends_run win x.1 = false) := by
  obtain ⟨hs, hp⟩ := inactive_globals s h
  have hna : ¬ s.active = true := by simp [h]
  have hblk := attempts_block win env .tcp
  have hst : ∀ b, spawns (strategy_events win env .tcp ++ [.tried .tcp b]) = [] := by
    intro b
    simp [strategy_events, spawns_append, tcp_connect_obs, spawns]
  have hnot : ∀ a, Chain (configured win env) (ends_run win)
      [.exe_script, .override, .fallback] a → (Strategy.tcp, true) ∉ a := by
    intro a ha hmem
    have := (chain_mem _ _ _ _ ha _ hmem).1
    simp at this
  by_cases hc : nonempty (getenv_safe env "TURTLE_TCP_ADDR") = true
  · have hcfg : configured win env .tcp = true := hc
    cases hr : (tcp_connect win env (str (getenv_safe env "TURTLE_TCP_ADDR"))).1 with
    | some fd =>
      have hdef : rt_init win env s =
          { s.emit (strategy_events win env .tcp ++ [.tried .tcp true]) with
            g_sock := some fd } := by
        simp [rt_init, hna, hc, hr, strategy_events]
      refine ⟨strategy_events win env .tcp ++ [.tried .tcp true], ?_, ?_, ?_,
        fun _ => ⟨hblk true, hst true⟩, fun hn => ?_, ?_, ?_⟩
      · rw [hdef]
        rfl
      · rw [hblk]
        exact chain_ok _ _ _ _ hcfg
      · rw [hblk]
        simp [attempt_events]
      · rw [hdef] at hn
        simp at hn
      · rw [hblk, hdef]
        simp [State.active]
      · intro _ x hx
        rw [hblk] at hx
        simp only [List.mem_singleton] at hx
        rw [hx]
        rfl
    | none =>
      have hdef : rt_init win env s = rt_init_exe_script win env
          (s.emit (strategy_events win env .tcp ++ [.tried .tcp false])) := by
        simp [rt_init, hna, hc, hr, strategy_events]
      obtain ⟨es, h1, h2, h3, h4, h5, h6⟩ := rt_init_exe_script_events win env
        (s.emit (strategy_events win env .tcp ++ [.tried .tcp false])) hp
      have hg2 : (rt_init win env s).g_sock = none := by
        rw [hdef, rt_init_exe_script_g_sock]
        exact hs
      refine ⟨(strategy_events win env .tcp ++ [.tried .tcp false]) ++ es, ?_, ?_, ?_,
        fun hn => ?_, fun _ => ⟨?_, ?_⟩, ?_, ?_⟩
      · rw [hdef, h1]
        simp [State.emit]
      · rw [attempts_append, hblk]
        exact chain_fail _ _ _ _ _ hcfg rfl h2
      · rw [attempts_append, hblk]
        exact attempt_events_cons win env _ _ es h3
      · rw [hg2] at hn
        simp at hn
      · rw [exe_script_spawns_append, h4]
        simp [exe_script_spawns, hst]
      · rw [attempts_append, hblk]
        intro hmem
        rcases List.mem_append.mp hmem with hm | hm
        · simp at hm
        · exact hnot _ h2 hm
      · rw [attempts_append, hblk]
        have : (rt_init win env s).g_py.isSome = (attempts es).any (fun x => x.2) := by
          rw [hdef]
          exact h5
        simp [State.active, hg2, this]
      · intro hab x hx
        rw [attempts_append, hblk] at hx
        rcases List.mem_append.mp hx with hx | hx
        · simp only [List.mem_singleton] at hx
          rw [hx]
          rfl
        · rw [hdef] at hab
          exact h6 hab x hx
  · have hcfg : ¬ configured win env .tcp = true := hc
    have hdef : rt_init win env s = rt_init_exe_script win env s := by
      simp [rt_init, hna, hc]
    obtain ⟨es, h1, h2, h3, h4, h5, h6⟩ := rt_init_exe_script_events win env s hp
    have hg2 : (rt_init win env s).g_sock = none := by
      rw [hdef, rt_init_exe_script_g_sock]
      exact hs
    refine ⟨es, by rw [hdef]; exact h1, chain_skip _ _ _ _ _ hcfg h2, h3, fun hn => ?_,
      fun _ => ⟨h4, hnot _ h2⟩, ?_, ?_⟩
    · rw [hg2] at hn
      simp at hn
    · have : (rt_init win env s).g_py.isSome = (attempts es).any (fun x => x.2) := by
        rw [hdef]
        exact h5
      simp [State.active, hg2, this]
    · intro hab
      rw [hdef] at hab
      exact h6 hab

theorem since_of_trace (s t : State) (es : List Event) (h : t.trace = s.trace ++ es) :
    since s t = es := by
  simp [since, h]

/-! ### C5 -/

/-- C6, amended: `rt_init` in a state with an active transport (socket or
pipe) returns the state as it is; so when the first of two calls in a row
left a transport active, the second makes no connection or spawn attempt
and changes nothing, whatever the environment.  When the first call left no
transport, the second call runs the connector again. -/
theorem rt_init_idempotent_when_connected (win : Bool) (env1 env2 : Env) (s : State) :
    (s.active = true → rt_init win env2 s = s) ∧
      ((rt_init win env1 s).active = true →
        rt_init win env2 (rt_init win env1 s) = rt_init win env1 s) ∧
      ((rt_init win env1 s).active = false →
        attempts (since (rt_init win env1 s) (rt_init win env2 (rt_init win env1 s))) ≠ []) := by
  refine ⟨rt_init_of_active win env2 s, rt_init_of_active win env2 _, fun h => ?_⟩
  obtain ⟨es, h1, h2, _⟩ := rt_init_events win env2 _ h
  rw [since_of_trace _ _ es h1]
  exact chain_ne_nil _ _ _ _ h2 .fallback (strategies_all _) rfl

/-- Witness for C6 amended: a first `rt_init` that starts the interpreter,
a second one in an environment where a socket could be connected. -/
theorem rt_init_idempotent_when_connected_witness :
    (rt_init false pipe_env boot).active = true ∧
      rt_init false (sock_env true) (rt_init false pipe_env boot) = rt_init false pipe_env boot :=
  have ha : (rt_init false pipe_env boot).active = true := by decide
  ⟨ha, (rt_init_idempotent_when_connected false pipe_env (sock_env true) boot).2.1 ha⟩

/-! ### C10 -/

/-- C10, as stated, fails in the Windows branch: with a script path and no
executable path configured, the executable + script strategy still creates a
process, running the launcher `py.exe` on the script. -/
theorem exe_script_without_exe_spawns :
    nonempty (getenv_safe script_env "TURTLE_PY_EXE") = false ∧
      exe_script_spawns (since boot (rt_init true script_env boot)) =
        [(.exe_script, "py.exe -u \"draw.py\"".toList, true)] ∧
      attempts (since boot (rt_init true script_env boot)) = [(.exe_script, true)] := by
  decide

/-- C10, amended: when `rt_init`, entered with no transport, gets no socket
from the TCP strategy, then: in the non-Windows branch the executable +
script strategy creates a process if and only if both paths are configured,
with the command line `"<exe>" -u "<script>"`; in the Windows branch it is
attempted if and only if the script path is configured, and once `CreatePipe`
succeeded it creates a process with that command line when an executable
path is configured and with `py.exe -u "<script>"` when not (command lines
are cut to the 4095 bytes of the buffer).  When the strategy is not
configured it is not attempted and creates nothing, and a configured
override command line is attempted. -/
theorem exe_script_strategy (win : Bool) (env : Env) (s : State) (h : s.active = false)
    (htcp : (rt_init win env s).g_sock = none) :
    (win = false →
        exe_script_spawns (since s (rt_init win env s)) =
          if exe_and_script env = true then
            [(.exe_script, exe_script_cmd env,
              (env.popen .exe_script (exe_script_cmd env)).isSome)]
          else []) ∧
      (win = true →
        exe_script_spawns (since s (rt_init win env s)) =
          if nonempty (getenv_safe env "TURTLE_PY_SCRIPT") = true ∧
              env.CreatePipe .exe_script = true then
            [(.exe_script, exe_script_cmd_win env,
              env.CreateProcessA .exe_script (exe_script_cmd_win env))]
          else []) ∧
      ((∃ ok, (.exe_script, ok) ∈ attempts (since s (rt_init win env s))) ↔
        (if win = true then nonempty (getenv_safe env "TURTLE_PY_SCRIPT")
          else exe_and_script env) = true) ∧
      ((if win = true then nonempty (getenv_safe env "TURTLE_PY_SCRIPT")
          else exe_and_script env) = false →
        exe_script_spawns (since s (rt_init win env s)) = [] ∧
          (nonempty (getenv_safe env "TURTLE_PY_CMD") = true →
            ∃ ok, (.override, ok) ∈ attempts (since s (rt_init win env s)))) := by
  obtain ⟨es, h1, h2, _, _, h4, _⟩ := rt_init_events win env s h
  rw [since_of_trace s _ es h1]
  obtain ⟨hsp, hno⟩ := h4 htcp
  obtain ⟨a', ha', hsub, _⟩ := chain_tail _ _ _ _ _ h2 rfl hno
  have hcfg : configured win env .exe_script =
      (if win = true then nonempty (getenv_safe env "TURTLE_PY_SCRIPT")
        else exe_and_script env) := by
    cases win <;> simp [configured, exe_and_script]
  refine ⟨fun hw => ?_, fun hw => ?_, ⟨?_, ?_⟩, ?_⟩
  · rw [hsp, hw]
    simp [exe_script_expected]
  · rw [hsp, hw]
    simp [exe_script_expected]
  · rintro ⟨ok, hok⟩
    rw [← hcfg]
    exact (chain_mem _ _ _ _ h2 _ hok).2
  · intro hc
    rw [← hcfg] at hc
    obtain ⟨ok, hok⟩ := chain_head _ _ _ _ _ ha' hc
    exact ⟨ok, hsub _ hok⟩
  · intro hc
    rw [← hcfg] at hc
    constructor
    · rw [hsp]
      cases win
      · simpa [exe_script_expected, configured, exe_and_script] using hc
      · simp only [configured, if_true] at hc
        simp [exe_script_expected, hc]
    · intro hov
      have hc2 : ¬ configured win env .exe_script = true := by simp [hc]
      simp only [Chain, hc2, if_false] at ha'
      have hov2 : configured win env .override = true := hov
      have ha2 : Chain (configured win env) (ends_run win) [.override, .fallback] a' := by
        simpa only [Chain] using ha'
      obtain ⟨ok, hok⟩ := chain_head _ _ _ _ _ ha2 hov2
      exact ⟨ok, hsub _ hok⟩

/-- Witness for C10 amended: the non-Windows branch with executable and
script configured and the TCP connection failing. -/
theorem exe_script_strategy_witness :
    boot.active = false ∧ (rt_init false full_env boot).g_sock = none ∧
      exe_script_spawns (since boot (rt_init false full_env boot)) =
        [(.exe_script, "\"python3\" -u \"draw.py\"".toList, true)] :=
  ⟨rfl, by decide,
    ((exe_script_strategy false full_env boot rfl (by decide)).1 rfl).trans (by decide)⟩

end LogoTec
